import Mathlib

/-!
Shallow embedding of the transaction-processing engine in `src/src/processor.rs`
and its data model in `src/src/model.rs`, `src/src/model/account.rs`,
`src/src/model/transaction.rs`.

Client ids (`u16`) and transaction ids (`u32`) are modelled as `Nat`; the exact
decimal amounts (`rust_decimal::Decimal`) are modelled as `ℚ`.  The two
`HashMap`s of `TransactionProcessor` are modelled as association lists with
first-match lookup; `HashMap::insert` is modelled as remove-then-append and
`Entry::or_default` as append-if-absent, both of which agree with the hash map
observationally under lookup.
-/

namespace Ledger

/-- The error taxonomy of `ProcessingErrorKind` in `src/src/processor.rs`. -/
inductive ProcessingErrorKind where
  | NegativeAmount
  | NotSufficientFunds
  | DisputeReferencesAlreadyDisputedTx
  | NotSufficientFundsForDispute
  | ResolveWhenTxNotUnderDispute
  | ChargebackWhenTxNotUnderDispute
deriving DecidableEq

/-- `ProcessingError` in `src/src/processor.rs`: kind plus offending client and tx. -/
structure ProcessingError where
  client : Nat
  tx : Nat
  kind : ProcessingErrorKind
deriving DecidableEq

/-- `Account` in `src/src/model/account.rs`. -/
structure Account where
  available : ℚ
  held : ℚ
  locked : Bool
  error : Option ProcessingError
deriving DecidableEq

/-- `Account::default()`: all fields zero / false / none. -/
def Account.init : Account :=
  { available := 0, held := 0, locked := false, error := none }

/-- `AccountSummary` in `src/src/model/account.rs`. -/
structure AccountSummary where
  client : Nat
  available : ℚ
  held : ℚ
  total : ℚ
  locked : Bool
deriving DecidableEq

/-- `TransactionState` in `src/src/processor.rs`. -/
structure TransactionState where
  amount : ℚ
  is_under_dispute : Bool
  is_deposit : Bool
deriving DecidableEq

/-- The `Transaction` enum of `src/src/model/transaction.rs` (payload structs inlined). -/
inductive Transaction where
  | deposit (client : Nat) (transaction_id : Nat) (amount : ℚ)
  | withdrawal (client : Nat) (transaction_id : Nat) (amount : ℚ)
  | dispute (client : Nat) (transaction_id : Nat)
  | resolve (client : Nat) (transaction_id : Nat)
  | chargeback (client : Nat) (transaction_id : Nat)
deriving DecidableEq

/-- `Transaction::client_id` in `src/src/model/transaction.rs`. -/
def Transaction.client_id : Transaction → Nat
  | .deposit c _ _ => c
  | .withdrawal c _ _ => c
  | .dispute c _ => c
  | .resolve c _ => c
  | .chargeback c _ => c

/-- `Transaction::tx_id` in `src/src/model/transaction.rs`. -/
def Transaction.tx_id : Transaction → Nat
  | .deposit _ t _ => t
  | .withdrawal _ t _ => t
  | .dispute _ t => t
  | .resolve _ t => t
  | .chargeback _ t => t

/-- First-match lookup in an association list (`HashMap::get`). -/
def alGet {α : Type} : List (Nat × α) → Nat → Option α
  | [], _ => none
  | (k, v) :: rest, key => if k = key then some v else alGet rest key

/-- Replace the first binding of `key` (or append one): in-place update of an
existing entry obtained by `get_mut` / `Entry`. -/
def alSet {α : Type} : List (Nat × α) → Nat → α → List (Nat × α)
  | [], key, v => [(key, v)]
  | (k, w) :: rest, key, v =>
      if k = key then (key, v) :: rest else (k, w) :: alSet rest key v

/-- `HashMap::insert`: any prior binding of `key` is removed and the new one stored. -/
def alInsert {α : Type} (l : List (Nat × α)) (key : Nat) (v : α) : List (Nat × α) :=
  l.filter (fun e => !(e.1 == key)) ++ [(key, v)]

/-- Mutate the value bound to `key` in place (`get_mut` followed by a field write). -/
def alUpd {α : Type} : List (Nat × α) → Nat → (α → α) → List (Nat × α)
  | [], _, _ => []
  | (k, v) :: rest, key, f =>
      if k = key then (k, f v) :: alUpd rest key f else (k, v) :: alUpd rest key f

/-- `TransactionProcessor` in `src/src/processor.rs`: the per-client account map
and the global (cross-client) transaction history map. -/
structure TransactionProcessor where
  accounts : List (Nat × Account)
  transactions : List (Nat × TransactionState)
deriving DecidableEq

/-- `TransactionProcessor::default()`. -/
def emptyProcessor : TransactionProcessor := { accounts := [], transactions := [] }

/-- `self.accounts.entry(client).or_default()`: create the account if absent. -/
def ensureAccount (p : TransactionProcessor) (c : Nat) : TransactionProcessor :=
  match alGet p.accounts c with
  | some _ => p
  | none => { p with accounts := p.accounts ++ [(c, Account.init)] }

/-- The account recorded for client `c` (`Account::default()` if absent, matching
`or_default`). -/
def acct (p : TransactionProcessor) (c : Nat) : Account :=
  (alGet p.accounts c).getD Account.init

/-- Store an updated account record for client `c`. -/
def setAcct (p : TransactionProcessor) (c : Nat) (a : Account) : TransactionProcessor :=
  { p with accounts := alSet p.accounts c a }

/-- `TransactionProcessor::add_transaction`: record history for deposits and
withdrawals only; dispute/resolve/chargeback insert nothing. -/
def addTransaction (p : TransactionProcessor) (t : Transaction) : TransactionProcessor :=
  match t with
  | .deposit _ id amt =>
      { p with transactions := alInsert p.transactions id ⟨amt, false, true⟩ }
  | .withdrawal _ id amt =>
      { p with transactions := alInsert p.transactions id ⟨amt, false, false⟩ }
  | _ => p

/-- The `Transaction::Deposit` arm of `handle` (`src/src/processor.rs` lines 56-68),
followed by the shared `add_transaction` call of line 173 on the accepted path.
`a` is the account of client `c` in `p`. -/
def handleDeposit (p : TransactionProcessor) (a : Account) (c id : Nat) (amt : ℚ) :
    TransactionProcessor :=
  if amt < 0 then
    setAcct p c { a with error := some ⟨c, id, .NegativeAmount⟩ }
  else
    addTransaction (setAcct p c { a with available := a.available + amt }) (.deposit c id amt)

/-- The `Transaction::Withdrawal` arm of `handle` (lines 69-91) plus the shared
`add_transaction` call on the accepted path. -/
def handleWithdrawal (p : TransactionProcessor) (a : Account) (c id : Nat) (amt : ℚ) :
    TransactionProcessor :=
  if amt < 0 then
    setAcct p c { a with error := some ⟨c, id, .NegativeAmount⟩ }
  else if a.available < amt then
    setAcct p c { a with error := some ⟨c, id, .NotSufficientFunds⟩ }
  else
    addTransaction (setAcct p c { a with available := a.available - amt })
      (.withdrawal c id amt)

/-- The `Transaction::Dispute` arm of `handle` (lines 92-125).  A dangling tx id is
a silent no-op; `add_transaction` inserts nothing for a dispute. -/
def handleDispute (p : TransactionProcessor) (a : Account) (c id : Nat) :
    TransactionProcessor :=
  match alGet p.transactions id with
  | none => p
  | some e =>
    if e.is_under_dispute then
      setAcct p c { a with error := some ⟨c, id, .DisputeReferencesAlreadyDisputedTx⟩ }
    else if e.is_deposit then
      if a.available < e.amount then
        setAcct p c { a with error := some ⟨c, id, .NotSufficientFundsForDispute⟩ }
      else
        { accounts :=
            alSet p.accounts c
              { a with available := a.available - e.amount, held := a.held + e.amount },
          transactions :=
            alUpd p.transactions id (fun s => { s with is_under_dispute := true }) }
    else
      { accounts := alSet p.accounts c { a with held := a.held + e.amount },
        transactions :=
          alUpd p.transactions id (fun s => { s with is_under_dispute := true }) }

/-- The `Transaction::Resolve` arm of `handle` (lines 126-145). -/
def handleResolve (p : TransactionProcessor) (a : Account) (c id : Nat) :
    TransactionProcessor :=
  match alGet p.transactions id with
  | none => p
  | some e =>
    if !e.is_under_dispute then
      setAcct p c { a with error := some ⟨c, id, .ResolveWhenTxNotUnderDispute⟩ }
    else
      { accounts :=
          alSet p.accounts c
            { a with available := a.available + e.amount, held := a.held - e.amount },
        transactions :=
          alUpd p.transactions id (fun s => { s with is_under_dispute := false }) }

/-- The `Transaction::Chargeback` arm of `handle` (lines 146-170). -/
def handleChargeback (p : TransactionProcessor) (a : Account) (c id : Nat) :
    TransactionProcessor :=
  match alGet p.transactions id with
  | none => p
  | some e =>
    if !e.is_under_dispute then
      setAcct p c { a with error := some ⟨c, id, .ChargebackWhenTxNotUnderDispute⟩ }
    else if e.is_deposit then
      { accounts := alSet p.accounts c { a with held := a.held - e.amount, locked := true },
        transactions :=
          alUpd p.transactions id (fun s => { s with is_under_dispute := false }) }
    else
      { accounts :=
          alSet p.accounts c
            { a with available := a.available + e.amount, held := a.held - e.amount,
                     locked := true },
        transactions :=
          alUpd p.transactions id (fun s => { s with is_under_dispute := false }) }

/-- Dispatch on the event kind, after the lock / terminal-error gate of
`handle` (lines 48-53). -/
def dispatch (p : TransactionProcessor) (t : Transaction) : TransactionProcessor :=
  match t with
  | .deposit c id amt => handleDeposit p (acct p c) c id amt
  | .withdrawal c id amt => handleWithdrawal p (acct p c) c id amt
  | .dispute c id => handleDispute p (acct p c) c id
  | .resolve c id => handleResolve p (acct p c) c id
  | .chargeback c id => handleChargeback p (acct p c) c id

/-- `TransactionProcessor::handle` (lines 47-174): create the client's account if
absent, short-circuit on a locked or errored account, otherwise dispatch. -/
def handle (p : TransactionProcessor) (t : Transaction) : TransactionProcessor :=
  let q := ensureAccount p (Transaction.client_id t)
  if (acct q (Transaction.client_id t)).locked ||
      (acct q (Transaction.client_id t)).error.isSome then q
  else dispatch q t

/-- `TransactionProcessor::summary` (lines 176-192): one row per account whose
terminal error is unset. -/
def summary (p : TransactionProcessor) : List AccountSummary :=
  (p.accounts.filter (fun e => e.2.error.isNone)).map
    (fun e =>
      { client := e.1, available := e.2.available, held := e.2.held,
        total := e.2.available + e.2.held, locked := e.2.locked })

/-- Fold `handle` over a list of events starting from `p`. -/
def runTrace (p : TransactionProcessor) (ts : List Transaction) : TransactionProcessor :=
  ts.foldl handle p

/-- Run a whole event trace from the default (empty) processor, as `main` does. -/
def processTrace (ts : List Transaction) : TransactionProcessor :=
  runTrace emptyProcessor ts

/-- The account's net worth `total = available + held` for client `c`. -/
def totalOf (p : TransactionProcessor) (c : Nat) : ℚ :=
  (acct p c).available + (acct p c).held

/-- The lock / terminal-error gate of `handle` is open for client `c`. -/
def activeFor (p : TransactionProcessor) (c : Nat) : Bool :=
  !(acct p c).locked && (acct p c).error.isNone

/-- Oracle for the spec's net-worth invariant, original form: the amount an event
contributes, at the processor state in which it is handled, to the sum
"accepted deposits minus accepted withdrawals minus amounts removed by
chargebacks on deposits" of client `c`.  Acceptance mirrors the guards of
`handle`: the gate must be open and the event's own rejection tests must pass. -/
def specContributionOrig (p : TransactionProcessor) (t : Transaction) (c : Nat) : ℚ :=
  if Transaction.client_id t = c ∧ activeFor p c = true then
    match t with
    | .deposit _ _ amt => if 0 ≤ amt then amt else 0
    | .withdrawal _ _ amt => if 0 ≤ amt ∧ amt ≤ (acct p c).available then -amt else 0
    | .dispute _ _ => 0
    | .resolve _ _ => 0
    | .chargeback _ id =>
        match alGet p.transactions id with
        | none => 0
        | some e =>
            if e.is_under_dispute = true ∧ e.is_deposit = true then -e.amount else 0
  else 0

/-- Oracle for the amended net-worth invariant: as `specContributionOrig`, but an
accepted dispute on a withdrawal additionally contributes `+amount` (the code
adds the disputed amount to `held` without touching `available`). -/
def specContribution (p : TransactionProcessor) (t : Transaction) (c : Nat) : ℚ :=
  if Transaction.client_id t = c ∧ activeFor p c = true then
    match t with
    | .deposit _ _ amt => if 0 ≤ amt then amt else 0
    | .withdrawal _ _ amt => if 0 ≤ amt ∧ amt ≤ (acct p c).available then -amt else 0
    | .dispute _ id =>
        match alGet p.transactions id with
        | none => 0
        | some e =>
            if e.is_under_dispute = false ∧ e.is_deposit = false then e.amount else 0
    | .resolve _ _ => 0
    | .chargeback _ id =>
        match alGet p.transactions id with
        | none => 0
        | some e =>
            if e.is_under_dispute = true ∧ e.is_deposit = true then -e.amount else 0
  else 0

/-- The original claimed net worth of client `c` over a trace run from `p`. -/
def specNetOrigFrom (p : TransactionProcessor) : List Transaction → Nat → ℚ
  | [], _ => 0
  | t :: ts, c => specContributionOrig p t c + specNetOrigFrom (handle p t) ts c

/-- The amended claimed net worth of client `c` over a trace run from `p`. -/
def specNetFrom (p : TransactionProcessor) : List Transaction → Nat → ℚ
  | [], _ => 0
  | t :: ts, c => specContribution p t c + specNetFrom (handle p t) ts c

/-- Total amount currently marked under dispute in the history store. -/
def disputedSum : List (Nat × TransactionState) → ℚ
  | [] => 0
  | e :: rest => (if e.2.is_under_dispute = true then e.2.amount else 0) + disputedSum rest

/-- The summary row `summary` emits for client `c` with account record `a`. -/
def summaryRow (c : Nat) (a : Account) : AccountSummary :=
  { client := c, available := a.available, held := a.held,
    total := a.available + a.held, locked := a.locked }

/-- Inductive invariant for the non-negativity of client `c`'s balances on
single-client traces: `available` is non-negative, `held` dominates the total
amount currently under dispute, all recorded amounts are non-negative, and the
history store binds each transaction id once. -/
def BalancesInv (c : Nat) (p : TransactionProcessor) : Prop :=
  0 ≤ (acct p c).available ∧
  disputedSum p.transactions ≤ (acct p c).held ∧
  (∀ e ∈ p.transactions, 0 ≤ e.2.amount) ∧
  (p.transactions.map Prod.fst).Nodup

theorem alGet_alSet_self {α : Type} (l : List (Nat × α)) (k : Nat) (v : α) :
    alGet (alSet l k v) k = some v := by
  induction l with
  | nil => simp [alSet, alGet]
  | cons e rest ih =>
      rcases e with ⟨k', w⟩
      by_cases h : k' = k <;> simp [alSet, alGet, h, ih]

theorem alGet_alSet_of_ne {α : Type} (l : List (Nat × α)) {k k' : Nat} (h : k' ≠ k)
    (v : α) : alGet (alSet l k v) k' = alGet l k' := by
  induction l with
  | nil => simp [alSet, alGet, Ne.symm h]
  | cons e rest ih =>
      rcases e with ⟨k'', w⟩
      by_cases h2 : k'' = k
      · subst h2
        simp [alSet, alGet, Ne.symm h]
      · simp [alSet, alGet, h2, ih]

theorem alGet_append_right {α : Type} (l : List (Nat × α)) (k : Nat) (v : α)
    (h : alGet l k = none) : alGet (l ++ [(k, v)]) k = some v := by
  induction l with
  | nil => simp [alGet]
  | cons e rest ih =>
      rcases e with ⟨k', w⟩
      by_cases h2 : k' = k
      · subst h2; simp [alGet] at h
      · simp [alGet, h2] at h ⊢
        exact ih h

theorem alGet_append_left {α : Type} (l : List (Nat × α)) {k k' : Nat} (v : α)
    (h : k' ≠ k) : alGet (l ++ [(k, v)]) k' = alGet l k' := by
  induction l with
  | nil => simp [alGet, Ne.symm h]
  | cons e rest ih =>
      rcases e with ⟨k'', w⟩
      by_cases h2 : k'' = k' <;> simp [alGet, h2, ih]

theorem alGet_filter_out {α : Type} (l : List (Nat × α)) (k : Nat) :
    alGet (l.filter (fun e => !(e.1 == k))) k = none := by
  induction l with
  | nil => simp [alGet]
  | cons e rest ih =>
      rcases e with ⟨k', w⟩
      by_cases h : k' = k
      · simp [List.filter_cons, h, ih]
      · simp [List.filter_cons, h, alGet, ih]

theorem alGet_filter_ne {α : Type} (l : List (Nat × α)) {k k' : Nat} (h : k' ≠ k) :
    alGet (l.filter (fun e => !(e.1 == k))) k' = alGet l k' := by
  induction l with
  | nil => simp
  | cons e rest ih =>
      rcases e with ⟨k'', w⟩
      by_cases h2 : k'' = k
      · subst h2
        simp [List.filter_cons, alGet, Ne.symm h, ih]
      · simp [List.filter_cons, h2, alGet, ih]

theorem alGet_alInsert_self {α : Type} (l : List (Nat × α)) (k : Nat) (v : α) :
    alGet (alInsert l k v) k = some v := by
  unfold alInsert
  exact alGet_append_right _ _ _ (alGet_filter_out l k)

theorem alGet_alInsert_of_ne {α : Type} (l : List (Nat × α)) {k k' : Nat} (h : k' ≠ k)
    (v : α) : alGet (alInsert l k v) k' = alGet l k' := by
  unfold alInsert
  rw [alGet_append_left _ _ h]
  exact alGet_filter_ne l h

theorem alGet_alUpd_self {α : Type} (l : List (Nat × α)) (k : Nat) (f : α → α) :
    alGet (alUpd l k f) k = (alGet l k).map f := by
  induction l with
  | nil => simp [alUpd, alGet]
  | cons e rest ih =>
      rcases e with ⟨k', w⟩
      by_cases h : k' = k <;> simp [alUpd, alGet, h, ih]

theorem alGet_alUpd_of_ne {α : Type} (l : List (Nat × α)) {k k' : Nat} (h : k' ≠ k)
    (f : α → α) : alGet (alUpd l k f) k' = alGet l k' := by
  induction l with
  | nil => simp [alUpd, alGet]
  | cons e rest ih =>
      rcases e with ⟨k'', w⟩
      by_cases h2 : k'' = k
      · subst h2
        simp [alUpd, alGet, Ne.symm h, ih]
      · simp [alUpd, alGet, h2, ih]

theorem ensureAccount_transactions (p : TransactionProcessor) (c : Nat) :
    (ensureAccount p c).transactions = p.transactions := by
  unfold ensureAccount
  cases alGet p.accounts c <;> rfl

theorem acct_ensureAccount (p : TransactionProcessor) (c c' : Nat) :
    acct (ensureAccount p c) c' = acct p c' := by
  unfold ensureAccount
  cases h : alGet p.accounts c with
  | some a => rfl
  | none =>
      by_cases h2 : c' = c
      · subst h2
        simp [acct, alGet_append_right _ _ _ h, h]
      · simp [acct, alGet_append_left _ _ h2]

theorem alGet_ensureAccount_self (p : TransactionProcessor) (c : Nat) :
    alGet (ensureAccount p c).accounts c = some (acct p c) := by
  unfold ensureAccount
  cases h : alGet p.accounts c with
  | some a => simp [acct, h]
  | none => simp [acct, h, alGet_append_right _ _ _ h]

theorem alGet_ensureAccount_of_ne (p : TransactionProcessor) {c c' : Nat} (h : c' ≠ c) :
    alGet (ensureAccount p c).accounts c' = alGet p.accounts c' := by
  unfold ensureAccount
  cases h2 : alGet p.accounts c with
  | some a => rfl
  | none => simp [alGet_append_left _ _ h]

theorem ensureAccount_of_isSome (p : TransactionProcessor) {c : Nat}
    (h : (alGet p.accounts c).isSome = true) : ensureAccount p c = p := by
  unfold ensureAccount
  cases h2 : alGet p.accounts c with
  | some a => rfl
  | none => rw [h2] at h; simp at h

theorem acct_setAcct_self (p : TransactionProcessor) (c : Nat) (a : Account) :
    acct (setAcct p c a) c = a := by
  simp [acct, setAcct, alGet_alSet_self]

theorem acct_setAcct_of_ne (p : TransactionProcessor) {c c' : Nat} (h : c' ≠ c)
    (a : Account) : acct (setAcct p c a) c' = acct p c' := by
  simp [acct, setAcct, alGet_alSet_of_ne _ h]

theorem setAcct_transactions (p : TransactionProcessor) (c : Nat) (a : Account) :
    (setAcct p c a).transactions = p.transactions := rfl

theorem addTransaction_accounts (p : TransactionProcessor) (t : Transaction) :
    (addTransaction p t).accounts = p.accounts := by
  cases t <;> rfl

theorem handle_gated (p : TransactionProcessor) (t : Transaction)
    (h : activeFor p (Transaction.client_id t) = false) :
    handle p t = ensureAccount p (Transaction.client_id t) := by
  unfold handle
  simp only [acct_ensureAccount]
  rw [if_pos]
  revert h
  unfold activeFor
  cases (acct p (Transaction.client_id t)).locked <;>
    cases (acct p (Transaction.client_id t)).error <;> simp

theorem handle_open (p : TransactionProcessor) (t : Transaction)
    (h : activeFor p (Transaction.client_id t) = true) :
    handle p t = dispatch (ensureAccount p (Transaction.client_id t)) t := by
  unfold handle
  simp only [acct_ensureAccount]
  rw [if_neg]
  revert h
  unfold activeFor
  cases (acct p (Transaction.client_id t)).locked <;>
    cases (acct p (Transaction.client_id t)).error <;> simp

theorem alGet_dispatch_of_ne (q : TransactionProcessor) (t : Transaction) {c : Nat}
    (h : c ≠ Transaction.client_id t) :
    alGet (dispatch q t).accounts c = alGet q.accounts c := by
  cases t with
  | deposit c' id amt =>
      simp only [Transaction.client_id] at h
      by_cases h0 : amt < 0 <;>
        simp [dispatch, handleDeposit, h0, addTransaction, setAcct, alGet_alSet_of_ne _ h]
  | withdrawal c' id amt =>
      simp only [Transaction.client_id] at h
      by_cases h0 : amt < 0
      · simp [dispatch, handleWithdrawal, h0, setAcct, alGet_alSet_of_ne _ h]
      · by_cases h1 : (acct q c').available < amt <;>
          simp [dispatch, handleWithdrawal, h0, h1, addTransaction, setAcct,
            alGet_alSet_of_ne _ h]
  | dispute c' id =>
      simp only [Transaction.client_id] at h
      cases hg : alGet q.transactions id with
      | none => simp [dispatch, handleDispute, hg]
      | some e =>
          by_cases h1 : e.is_under_dispute = true
          · simp [dispatch, handleDispute, hg, h1, setAcct, alGet_alSet_of_ne _ h]
          · by_cases h2 : e.is_deposit = true
            · by_cases h3 : (acct q c').available < e.amount <;>
                simp [dispatch, handleDispute, hg, h1, h2, h3, setAcct,
                  alGet_alSet_of_ne _ h]
            · simp [dispatch, handleDispute, hg, h1, h2, setAcct, alGet_alSet_of_ne _ h]
  | resolve c' id =>
      simp only [Transaction.client_id] at h
      cases hg : alGet q.transactions id with
      | none => simp [dispatch, handleResolve, hg]
      | some e =>
          by_cases h1 : e.is_under_dispute = true <;>
            simp [dispatch, handleResolve, hg, h1, setAcct, alGet_alSet_of_ne _ h]
  | chargeback c' id =>
      simp only [Transaction.client_id] at h
      cases hg : alGet q.transactions id with
      | none => simp [dispatch, handleChargeback, hg]
      | some e =>
          by_cases h1 : e.is_under_dispute = true
          · by_cases h2 : e.is_deposit = true <;>
              simp [dispatch, handleChargeback, hg, h1, h2, setAcct, alGet_alSet_of_ne _ h]
          · simp [dispatch, handleChargeback, hg, h1, setAcct, alGet_alSet_of_ne _ h]

theorem alGet_handle_of_ne (p : TransactionProcessor) (t : Transaction) {c : Nat}
    (h : c ≠ Transaction.client_id t) :
    alGet (handle p t).accounts c = alGet p.accounts c := by
  by_cases hact : activeFor p (Transaction.client_id t) = true
  · rw [handle_open p t hact, alGet_dispatch_of_ne _ _ h, alGet_ensureAccount_of_ne _ h]
  · rw [handle_gated p t (by simpa using hact), alGet_ensureAccount_of_ne _ h]

theorem acct_handle_of_ne (p : TransactionProcessor) (t : Transaction) {c : Nat}
    (h : c ≠ Transaction.client_id t) : acct (handle p t) c = acct p c := by
  simp [acct, alGet_handle_of_ne p t h]

theorem totalOf_ensureAccount (p : TransactionProcessor) (c c' : Nat) :
    totalOf (ensureAccount p c') c = totalOf p c := by
  simp [totalOf, acct_ensureAccount]

theorem acct_addTransaction (p : TransactionProcessor) (t : Transaction) (c : Nat) :
    acct (addTransaction p t) c = acct p c := by
  unfold acct
  rw [addTransaction_accounts]

theorem acct_mk_alSet_self (A : List (Nat × Account)) (T : List (Nat × TransactionState))
    (c : Nat) (a : Account) :
    acct { accounts := alSet A c a, transactions := T } c = a := by
  simp [acct, alGet_alSet_self]

theorem totalOf_handle (p : TransactionProcessor) (t : Transaction) (c : Nat) :
    totalOf (handle p t) c = totalOf p c + specContribution p t c := by
  by_cases hc : Transaction.client_id t = c
  · by_cases hact : activeFor p c = true
    · rw [handle_open p t (by rw [hc]; exact hact)]
      cases t with
      | deposit c' id amt =>
          simp only [Transaction.client_id] at hc
          subst hc
          by_cases h0 : amt < 0
          · simp [dispatch, handleDeposit, Transaction.client_id, h0, totalOf,
              acct_ensureAccount, acct_setAcct_self, acct_addTransaction,
              specContribution, hact, not_le.mpr h0]
          · simp [dispatch, handleDeposit, Transaction.client_id, h0, totalOf,
              acct_ensureAccount, acct_setAcct_self, acct_addTransaction,
              specContribution, hact, not_lt.mp h0]
            try ring
      | withdrawal c' id amt =>
          simp only [Transaction.client_id] at hc
          subst hc
          by_cases h0 : amt < 0
          · simp [dispatch, handleWithdrawal, Transaction.client_id, h0, totalOf,
              acct_ensureAccount, acct_setAcct_self, acct_addTransaction,
              specContribution, hact, not_le.mpr h0]
          · by_cases h1 : (acct p c').available < amt
            · simp [dispatch, handleWithdrawal, Transaction.client_id, h0, h1, totalOf,
                acct_ensureAccount, acct_setAcct_self, acct_addTransaction,
                specContribution, hact, not_le.mpr h1]
            · simp [dispatch, handleWithdrawal, Transaction.client_id, h0, h1, totalOf,
                acct_ensureAccount, acct_setAcct_self, acct_addTransaction,
                specContribution, hact, not_lt.mp h0, not_lt.mp h1]
              try ring
      | dispute c' id =>
          simp only [Transaction.client_id] at hc
          subst hc
          cases hg : alGet p.transactions id with
          | none =>
              simp [dispatch, handleDispute, Transaction.client_id,
                ensureAccount_transactions, hg, totalOf, acct_ensureAccount,
                specContribution, hact]
          | some e =>
              by_cases h1 : e.is_under_dispute = true
              · simp [dispatch, handleDispute, Transaction.client_id,
                  ensureAccount_transactions, hg, h1, totalOf, acct_ensureAccount,
                  acct_setAcct_self, acct_mk_alSet_self, specContribution, hact]
              · by_cases h2 : e.is_deposit = true
                · by_cases h3 : (acct p c').available < e.amount
                  · simp [dispatch, handleDispute, Transaction.client_id,
                      ensureAccount_transactions, hg, h1, h2, h3, totalOf,
                      acct_ensureAccount, acct_setAcct_self, acct_mk_alSet_self,
                      specContribution, hact]
                  · simp [dispatch, handleDispute, Transaction.client_id,
                      ensureAccount_transactions, hg, h1, h2, h3, totalOf,
                      acct_ensureAccount, acct_setAcct_self, acct_mk_alSet_self,
                      specContribution, hact]
                    try ring
                · simp [dispatch, handleDispute, Transaction.client_id,
                    ensureAccount_transactions, hg, h1, h2, totalOf, acct_ensureAccount,
                    acct_setAcct_self, acct_mk_alSet_self, specContribution, hact]
                  try ring
      | resolve c' id =>
          simp only [Transaction.client_id] at hc
          subst hc
          cases hg : alGet p.transactions id with
          | none =>
              simp [dispatch, handleResolve, Transaction.client_id,
                ensureAccount_transactions, hg, totalOf, acct_ensureAccount,
                specContribution, hact]
          | some e =>
              by_cases h1 : e.is_under_dispute = true
              · simp [dispatch, handleResolve, Transaction.client_id,
                  ensureAccount_transactions, hg, h1, totalOf, acct_ensureAccount,
                  acct_setAcct_self, acct_mk_alSet_self, specContribution, hact]
                try ring
              · simp [dispatch, handleResolve, Transaction.client_id,
                  ensureAccount_transactions, hg, h1, totalOf, acct_ensureAccount,
                  acct_setAcct_self, acct_mk_alSet_self, specContribution, hact]
      | chargeback c' id =>
          simp only [Transaction.client_id] at hc
          subst hc
          cases hg : alGet p.transactions id with
          | none =>
              simp [dispatch, handleChargeback, Transaction.client_id,
                ensureAccount_transactions, hg, totalOf, acct_ensureAccount,
                specContribution, hact]
          | some e =>
              by_cases h1 : e.is_under_dispute = true
              · by_cases h2 : e.is_deposit = true
                · simp [dispatch, handleChargeback, Transaction.client_id,
                    ensureAccount_transactions, hg, h1, h2, totalOf, acct_ensureAccount,
                    acct_setAcct_self, acct_mk_alSet_self, specContribution, hact]
                  try ring
                · simp [dispatch, handleChargeback, Transaction.client_id,
                    ensureAccount_transactions, hg, h1, h2, totalOf, acct_ensureAccount,
                    acct_setAcct_self, acct_mk_alSet_self, specContribution, hact]
                  try ring
              · simp [dispatch, handleChargeback, Transaction.client_id,
                  ensureAccount_transactions, hg, h1, totalOf, acct_ensureAccount,
                  acct_setAcct_self, acct_mk_alSet_self, specContribution, hact]
    · have hf : activeFor p (Transaction.client_id t) = false := by
        rw [hc]; simpa using hact
      rw [handle_gated p t hf, totalOf_ensureAccount]
      have hz : specContribution p t c = 0 := by
        unfold specContribution
        rw [if_neg]
        intro hcon
        exact hact hcon.2
      rw [hz, add_zero]
  · have h1 := acct_handle_of_ne p t (Ne.symm hc)
    have h2 : specContribution p t c = 0 := by
      unfold specContribution
      rw [if_neg]
      intro hcon
      exact hc hcon.1
    simp [totalOf, h1, h2]

theorem totalOf_runTrace (ts : List Transaction) (p : TransactionProcessor) (c : Nat) :
    totalOf (runTrace p ts) c = totalOf p c + specNetFrom p ts c := by
  induction ts generalizing p with
  | nil => simp [runTrace, specNetFrom]
  | cons t rest ih =>
      show totalOf (runTrace (handle p t) rest) c = _
      rw [ih (handle p t), totalOf_handle, specNetFrom]
      ring

theorem totalOf_emptyProcessor (c : Nat) : totalOf emptyProcessor c = 0 := by
  simp [totalOf, acct, emptyProcessor, alGet, Account.init]

/-- C1 (amended): after any trace, each client's total (`available + held`) equals
the sum of that client's accepted deposits, minus accepted withdrawals, minus
amounts removed by chargebacks on deposits, plus the amounts of accepted
disputes on withdrawals (each contribution evaluated at the state in which its
event is handled). -/
theorem c1_net_worth_invariant_amended (ts : List Transaction) (c : Nat) :
    totalOf (processTrace ts) c = specNetFrom emptyProcessor ts c := by
  rw [processTrace, totalOf_runTrace, totalOf_emptyProcessor, zero_add]

theorem disputedSum_nonneg (l : List (Nat × TransactionState))
    (h : ∀ e ∈ l, 0 ≤ e.2.amount) : 0 ≤ disputedSum l := by
  induction l with
  | nil => simp [disputedSum]
  | cons e rest ih =>
      rw [disputedSum]
      have he : 0 ≤ e.2.amount := h e (List.mem_cons_self e rest)
      have hr : 0 ≤ disputedSum rest := ih (fun x hx => h x (List.mem_cons_of_mem e hx))
      have : (0 : ℚ) ≤ (if e.2.is_under_dispute = true then e.2.amount else 0) := by
        split <;> simp [he]
      linarith

theorem disputedSum_append (l1 l2 : List (Nat × TransactionState)) :
    disputedSum (l1 ++ l2) = disputedSum l1 + disputedSum l2 := by
  induction l1 with
  | nil => simp [disputedSum]
  | cons e rest ih => rw [List.cons_append, disputedSum, disputedSum, ih]; ring

theorem disputedSum_filter_le (l : List (Nat × TransactionState))
    (q : Nat × TransactionState → Bool) (h : ∀ e ∈ l, 0 ≤ e.2.amount) :
    disputedSum (l.filter q) ≤ disputedSum l := by
  induction l with
  | nil => simp [disputedSum]
  | cons e rest ih =>
      have he : 0 ≤ e.2.amount := h e (List.mem_cons_self e rest)
      have hr := ih (fun x hx => h x (List.mem_cons_of_mem e hx))
      have hc : (0 : ℚ) ≤ (if e.2.is_under_dispute = true then e.2.amount else 0) := by
        split <;> simp [he]
      rw [List.filter_cons]
      by_cases hq : q e = true
      · simp only [hq, if_true, disputedSum]
        linarith [hr]
      · simp only [hq, if_false, disputedSum, Bool.false_eq_true]
        linarith [hr]

theorem disputedSum_alInsert_le (l : List (Nat × TransactionState)) (k : Nat)
    (amt : ℚ) (b : Bool) (h : ∀ e ∈ l, 0 ≤ e.2.amount) :
    disputedSum (alInsert l k ⟨amt, false, b⟩) ≤ disputedSum l := by
  unfold alInsert
  rw [disputedSum_append]
  simp only [disputedSum]
  have := disputedSum_filter_le l (fun e => !(e.1 == k)) h
  simp only [Bool.false_eq_true, if_false]
  linarith

theorem keys_alUpd (l : List (Nat × TransactionState)) (k : Nat)
    (f : TransactionState → TransactionState) :
    (alUpd l k f).map Prod.fst = l.map Prod.fst := by
  induction l with
  | nil => simp [alUpd]
  | cons e rest ih =>
      rcases e with ⟨k', v⟩
      by_cases h : k' = k <;> simp [alUpd, h, ih]

theorem alUpd_eq_of_not_mem (l : List (Nat × TransactionState)) (k : Nat)
    (f : TransactionState → TransactionState) (h : k ∉ l.map Prod.fst) :
    alUpd l k f = l := by
  induction l with
  | nil => simp [alUpd]
  | cons e rest ih =>
      rcases e with ⟨k', v⟩
      simp only [List.map_cons, List.mem_cons] at h
      push_neg at h
      simp [alUpd, Ne.symm h.1, ih h.2]

theorem alGet_mem {α : Type} (l : List (Nat × α)) (k : Nat) (v : α)
    (h : alGet l k = some v) : (k, v) ∈ l := by
  induction l with
  | nil => simp [alGet] at h
  | cons e rest ih =>
      rcases e with ⟨k', w⟩
      by_cases h2 : k' = k
      · subst h2
        simp [alGet] at h
        simp [h]
      · simp [alGet, h2] at h
        exact List.mem_cons_of_mem _ (ih h)

theorem disputedSum_alUpd (l : List (Nat × TransactionState)) (k : Nat)
    (f : TransactionState → TransactionState) (hnd : (l.map Prod.fst).Nodup)
    (e : TransactionState) (hget : alGet l k = some e) :
    disputedSum (alUpd l k f) =
      disputedSum l - (if e.is_under_dispute = true then e.amount else 0)
        + (if (f e).is_under_dispute = true then (f e).amount else 0) := by
  induction l with
  | nil => simp [alGet] at hget
  | cons hd rest ih =>
      rcases hd with ⟨k', v⟩
      simp only [List.map_cons, List.nodup_cons] at hnd
      by_cases h2 : k' = k
      · subst h2
        simp only [alGet, if_pos, Option.some.injEq] at hget
        subst hget
        rw [alUpd, if_pos rfl, alUpd_eq_of_not_mem rest k' f hnd.1]
        simp only [disputedSum]
        ring
      · simp only [alGet, h2, if_false, if_neg h2] at hget
        rw [alUpd, if_neg h2]
        simp only [disputedSum]
        rw [ih hnd.2 hget]
        ring

theorem amounts_nonneg_alInsert (l : List (Nat × TransactionState)) (k : Nat)
    (amt : ℚ) (b : Bool) (h : ∀ e ∈ l, 0 ≤ e.2.amount) (hamt : 0 ≤ amt) :
    ∀ e ∈ alInsert l k ⟨amt, false, b⟩, 0 ≤ e.2.amount := by
  intro e he
  unfold alInsert at he
  rcases List.mem_append.mp he with h1 | h1
  · exact h e (List.mem_of_mem_filter h1)
  · simp at h1
    subst h1
    exact hamt

theorem amounts_nonneg_alUpd (l : List (Nat × TransactionState)) (k : Nat)
    (f : TransactionState → TransactionState) (hf : ∀ s, (f s).amount = s.amount)
    (h : ∀ e ∈ l, 0 ≤ e.2.amount) : ∀ e ∈ alUpd l k f, 0 ≤ e.2.amount := by
  induction l with
  | nil => simp [alUpd]
  | cons hd rest ih =>
      rcases hd with ⟨k', v⟩
      have hv : 0 ≤ v.amount := h (k', v) (List.mem_cons_self _ _)
      have hrest := fun x hx => h x (List.mem_cons_of_mem _ hx)
      intro e he
      by_cases h2 : k' = k
      · rw [alUpd, if_pos h2] at he
        rcases List.mem_cons.mp he with h3 | h3
        · subst h3; simpa [hf v] using hv
        · exact ih hrest e h3
      · rw [alUpd, if_neg h2] at he
        rcases List.mem_cons.mp he with h3 | h3
        · subst h3; exact hv
        · exact ih hrest e h3

theorem keys_alInsert_nodup {α : Type} (l : List (Nat × α)) (k : Nat) (v : α)
    (h : (l.map Prod.fst).Nodup) : ((alInsert l k v).map Prod.fst).Nodup := by
  unfold alInsert
  rw [List.map_append]
  apply List.Nodup.append
  · exact ((l.filter_sublist).map Prod.fst).nodup h
  · simp
  · intro x hx hx2
    simp at hx2
    subst hx2
    rcases List.mem_map.mp hx with ⟨e, he, hek⟩
    have := List.of_mem_filter he
    simp [hek] at this

theorem balances_inv_handle (c : Nat) (p : TransactionProcessor) (t : Transaction)
    (hcl : Transaction.client_id t = c) (h : BalancesInv c p) :
    BalancesInv c (handle p t) := by
  obtain ⟨hav, hheld, hamts, hnd⟩ := h
  by_cases hact : activeFor p c = true
  · rw [handle_open p t (by rw [hcl]; exact hact)]
    cases t with
    | deposit c' id amt =>
        simp only [Transaction.client_id] at hcl
        subst hcl
        by_cases h0 : amt < 0 <;>
          [skip; have h0' : 0 ≤ amt := not_lt.mp h0] <;>
          refine ⟨?_, ?_, ?_, ?_⟩ <;>
          simp [dispatch, handleDeposit, h0, acct_ensureAccount, acct_setAcct_self,
            acct_mk_alSet_self, acct_addTransaction, addTransaction, setAcct,
            ensureAccount_transactions] <;>
          first
            | linarith
            | exact hnd
            | exact keys_alInsert_nodup _ _ _ hnd
            | exact hamts
            | exact fun a b hab => hamts (a, b) hab
            | exact amounts_nonneg_alInsert _ _ _ _ hamts (by linarith)
            | exact fun a b hab =>
                amounts_nonneg_alInsert _ _ _ _ hamts (by linarith) (a, b) hab
            | exact le_trans (disputedSum_alInsert_le _ _ _ _ hamts) hheld
    | withdrawal c' id amt =>
        simp only [Transaction.client_id] at hcl
        subst hcl
        by_cases h0 : amt < 0
        · refine ⟨?_, ?_, ?_, ?_⟩ <;>
            simp [dispatch, handleWithdrawal, h0, acct_ensureAccount, acct_setAcct_self,
              acct_mk_alSet_self, setAcct, ensureAccount_transactions] <;>
            first
              | linarith
              | exact hnd
              | exact hamts
              | exact fun a b hab => hamts (a, b) hab
        · have h0' : 0 ≤ amt := not_lt.mp h0
          by_cases h1 : (acct p c').available < amt <;>
            [skip; have h1' : amt ≤ (acct p c').available := not_lt.mp h1] <;>
            refine ⟨?_, ?_, ?_, ?_⟩ <;>
            simp [dispatch, handleWithdrawal, h0, h1, acct_ensureAccount, acct_setAcct_self,
              acct_mk_alSet_self, acct_addTransaction, addTransaction, setAcct,
              ensureAccount_transactions] <;>
            first
              | linarith
              | exact hnd
              | exact keys_alInsert_nodup _ _ _ hnd
              | exact hamts
              | exact fun a b hab => hamts (a, b) hab
              | exact amounts_nonneg_alInsert _ _ _ _ hamts (by linarith)
              | exact fun a b hab =>
                  amounts_nonneg_alInsert _ _ _ _ hamts (by linarith) (a, b) hab
              | exact le_trans (disputedSum_alInsert_le _ _ _ _ hamts) hheld
    | dispute c' id =>
        simp only [Transaction.client_id] at hcl
        subst hcl
        cases hg : alGet p.transactions id with
        | none =>
            refine ⟨?_, ?_, ?_, ?_⟩ <;>
              simp [dispatch, handleDispute, ensureAccount_transactions, hg,
                acct_ensureAccount] <;>
              first
                | linarith
                | exact hnd
                | exact hamts
                | exact fun a b hab => hamts (a, b) hab
        | some e =>
            have hmem : (id, e) ∈ p.transactions := alGet_mem _ _ _ hg
            have hamt : 0 ≤ e.amount := hamts (id, e) hmem
            by_cases h1 : e.is_under_dispute = true
            · refine ⟨?_, ?_, ?_, ?_⟩ <;>
                simp [dispatch, handleDispute, ensureAccount_transactions, hg, h1,
                  acct_ensureAccount, acct_setAcct_self, acct_mk_alSet_self, setAcct] <;>
                first
                  | linarith
                  | exact hnd
                  | exact hamts
                  | exact fun a b hab => hamts (a, b) hab
            · have hsum := disputedSum_alUpd p.transactions id
                  (fun s => { s with is_under_dispute := true }) hnd e hg
              simp [h1] at hsum
              by_cases h2 : e.is_deposit = true
              · by_cases h3 : (acct p c').available < e.amount
                · refine ⟨?_, ?_, ?_, ?_⟩ <;>
                    simp [dispatch, handleDispute, ensureAccount_transactions, hg, h1, h2,
                      h3, acct_ensureAccount, acct_setAcct_self, acct_mk_alSet_self,
                      setAcct] <;>
                    first
                      | linarith
                      | exact hnd
                      | exact hamts
                      | exact fun a b hab => hamts (a, b) hab
                · refine ⟨?_, ?_, ?_, ?_⟩ <;>
                    simp [dispatch, handleDispute, ensureAccount_transactions, hg, h1, h2,
                      h3, acct_ensureAccount, acct_mk_alSet_self, keys_alUpd, hsum] <;>
                    first
                      | linarith [not_lt.mp h3]
                      | exact hnd
                      | (refine amounts_nonneg_alUpd _ _ _ ?_ hamts; intro s; rfl)
                      | (refine fun a b hab => amounts_nonneg_alUpd _ _ _ ?_ hamts (a, b) hab; intro s; rfl)
              · refine ⟨?_, ?_, ?_, ?_⟩ <;>
                  simp [dispatch, handleDispute, ensureAccount_transactions, hg, h1, h2,
                    acct_ensureAccount, acct_mk_alSet_self, keys_alUpd, hsum] <;>
                  first
                    | linarith
                    | exact hnd
                    | (refine amounts_nonneg_alUpd _ _ _ ?_ hamts; intro s; rfl)
                    | (refine fun a b hab => amounts_nonneg_alUpd _ _ _ ?_ hamts (a, b) hab; intro s; rfl)
    | resolve c' id =>
        simp only [Transaction.client_id] at hcl
        subst hcl
        cases hg : alGet p.transactions id with
        | none =>
            refine ⟨?_, ?_, ?_, ?_⟩ <;>
              simp [dispatch, handleResolve, ensureAccount_transactions, hg,
                acct_ensureAccount] <;>
              first
                | linarith
                | exact hnd
                | exact hamts
                | exact fun a b hab => hamts (a, b) hab
        | some e =>
            have hmem : (id, e) ∈ p.transactions := alGet_mem _ _ _ hg
            have hamt : 0 ≤ e.amount := hamts (id, e) hmem
            by_cases h1 : e.is_under_dispute = true
            · have hsum := disputedSum_alUpd p.transactions id
                  (fun s => { s with is_under_dispute := false }) hnd e hg
              simp [h1] at hsum
              refine ⟨?_, ?_, ?_, ?_⟩ <;>
                simp [dispatch, handleResolve, ensureAccount_transactions, hg, h1,
                  acct_ensureAccount, acct_mk_alSet_self, keys_alUpd, hsum] <;>
                first
                  | linarith
                  | exact hnd
                  | (refine amounts_nonneg_alUpd _ _ _ ?_ hamts; intro s; rfl)
                  | (refine fun a b hab => amounts_nonneg_alUpd _ _ _ ?_ hamts (a, b) hab; intro s; rfl)
            · refine ⟨?_, ?_, ?_, ?_⟩ <;>
                simp [dispatch, handleResolve, ensureAccount_transactions, hg, h1,
                  acct_ensureAccount, acct_setAcct_self, acct_mk_alSet_self, setAcct] <;>
                first
                  | linarith
                  | exact hnd
                  | exact hamts
                  | exact fun a b hab => hamts (a, b) hab
    | chargeback c' id =>
        simp only [Transaction.client_id] at hcl
        subst hcl
        cases hg : alGet p.transactions id with
        | none =>
            refine ⟨?_, ?_, ?_, ?_⟩ <;>
              simp [dispatch, handleChargeback, ensureAccount_transactions, hg,
                acct_ensureAccount] <;>
              first
                | linarith
                | exact hnd
                | exact hamts
                | exact fun a b hab => hamts (a, b) hab
        | some e =>
            have hmem : (id, e) ∈ p.transactions := alGet_mem _ _ _ hg
            have hamt : 0 ≤ e.amount := hamts (id, e) hmem
            by_cases h1 : e.is_under_dispute = true
            · have hsum := disputedSum_alUpd p.transactions id
                  (fun s => { s with is_under_dispute := false }) hnd e hg
              simp [h1] at hsum
              by_cases h2 : e.is_deposit = true <;>
                refine ⟨?_, ?_, ?_, ?_⟩ <;>
                simp [dispatch, handleChargeback, ensureAccount_transactions, hg, h1, h2,
                  acct_ensureAccount, acct_mk_alSet_self, keys_alUpd, hsum] <;>
                first
                  | linarith
                  | exact hnd
                  | (refine amounts_nonneg_alUpd _ _ _ ?_ hamts; intro s; rfl)
                  | (refine fun a b hab => amounts_nonneg_alUpd _ _ _ ?_ hamts (a, b) hab; intro s; rfl)
            · refine ⟨?_, ?_, ?_, ?_⟩ <;>
                simp [dispatch, handleChargeback, ensureAccount_transactions, hg, h1,
                  acct_ensureAccount, acct_setAcct_self, acct_mk_alSet_self, setAcct] <;>
                first
                  | linarith
                  | exact hnd
                  | exact hamts
                  | exact fun a b hab => hamts (a, b) hab
  · have hf : activeFor p (Transaction.client_id t) = false := by
      rw [hcl]; simpa using hact
    rw [handle_gated p t hf]
    refine ⟨?_, ?_, ?_, ?_⟩ <;>
      simp [acct_ensureAccount, ensureAccount_transactions] <;>
      first
        | linarith
        | exact hnd
        | exact hamts
        | exact fun a b hab => hamts (a, b) hab

theorem balances_inv_empty (c : Nat) : BalancesInv c emptyProcessor := by
  refine ⟨?_, ?_, ?_, ?_⟩ <;> simp [BalancesInv, acct, emptyProcessor, alGet, Account.init,
    disputedSum]

theorem balances_inv_runTrace (c : Nat) (ts : List Transaction) (p : TransactionProcessor)
    (hall : ∀ t ∈ ts, Transaction.client_id t = c) (h : BalancesInv c p) :
    BalancesInv c (runTrace p ts) := by
  induction ts generalizing p with
  | nil => exact h
  | cons t rest ih =>
      show BalancesInv c (runTrace (handle p t) rest)
      exact ih (handle p t) (fun x hx => hall x (List.mem_cons_of_mem t hx))
        (balances_inv_handle c p t (hall t (List.mem_cons_self t rest)) h)

/-- C9: on a trace whose events all carry the same client id, that client's
available and held balances are non-negative after every run, even when
transaction ids are reused. -/
theorem c9_balances_nonneg (ts : List Transaction) (c : Nat)
    (h : ∀ t ∈ ts, Transaction.client_id t = c) :
    0 ≤ (acct (processTrace ts) c).available ∧ 0 ≤ (acct (processTrace ts) c).held := by
  obtain ⟨h1, h2, h3, _⟩ :=
    balances_inv_runTrace c ts emptyProcessor h (balances_inv_empty c)
  exact ⟨h1, le_trans (disputedSum_nonneg _ h3) h2⟩

/-- C9 witness: the invariant holds on the concrete five-event single-client trace
from the repository's own test (deposit, deposit, withdraw, dispute, chargeback). -/
theorem c9_witness :
    0 ≤ (acct (processTrace
      [.deposit 1 1 (3/2), .deposit 1 2 (3/2), .withdrawal 1 3 (3/2),
       .dispute 1 1, .chargeback 1 1]) 1).available ∧
    0 ≤ (acct (processTrace
      [.deposit 1 1 (3/2), .deposit 1 2 (3/2), .withdrawal 1 3 (3/2),
       .dispute 1 1, .chargeback 1 1]) 1).held :=
  c9_balances_nonneg _ 1 (by decide)

theorem locked_dispatch_eq (q : TransactionProcessor) (t : Transaction) (c : Nat)
    (hncb : ∀ c2 id, t ≠ Transaction.chargeback c2 id) :
    (acct (dispatch q t) c).locked = (acct q c).locked := by
  by_cases hc : c = Transaction.client_id t
  · subst hc
    cases t with
    | deposit c' id amt =>
        by_cases h0 : amt < 0 <;>
          simp [dispatch, handleDeposit, Transaction.client_id, h0, acct_setAcct_self,
            acct_addTransaction, acct_mk_alSet_self]
    | withdrawal c' id amt =>
        by_cases h0 : amt < 0
        · simp [dispatch, handleWithdrawal, Transaction.client_id, h0, acct_setAcct_self]
        · by_cases h1 : (acct q c').available < amt <;>
            simp [dispatch, handleWithdrawal, Transaction.client_id, h0, h1,
              acct_setAcct_self, acct_addTransaction, acct_mk_alSet_self]
    | dispute c' id =>
        cases hg : alGet q.transactions id with
        | none => simp [dispatch, handleDispute, Transaction.client_id, hg]
        | some e =>
            by_cases h1 : e.is_under_dispute = true
            · simp [dispatch, handleDispute, Transaction.client_id, hg, h1,
                acct_setAcct_self]
            · by_cases h2 : e.is_deposit = true
              · by_cases h3 : (acct q c').available < e.amount <;>
                  simp [dispatch, handleDispute, Transaction.client_id, hg, h1, h2, h3,
                    acct_setAcct_self, acct_mk_alSet_self]
              · simp [dispatch, handleDispute, Transaction.client_id, hg, h1, h2,
                  acct_setAcct_self, acct_mk_alSet_self]
    | resolve c' id =>
        cases hg : alGet q.transactions id with
        | none => simp [dispatch, handleResolve, Transaction.client_id, hg]
        | some e =>
            by_cases h1 : e.is_under_dispute = true <;>
              simp [dispatch, handleResolve, Transaction.client_id, hg, h1,
                acct_setAcct_self, acct_mk_alSet_self]
    | chargeback c' id => exact absurd rfl (hncb c' id)
  · simp [acct, alGet_dispatch_of_ne q t hc]

theorem locked_handle_eq (p : TransactionProcessor) (t : Transaction) (c : Nat)
    (hncb : ∀ c2 id, t ≠ Transaction.chargeback c2 id) :
    (acct (handle p t) c).locked = (acct p c).locked := by
  by_cases hact : activeFor p (Transaction.client_id t) = true
  · rw [handle_open p t hact, locked_dispatch_eq _ _ _ hncb, acct_ensureAccount]
  · rw [handle_gated p t (by simpa using hact), acct_ensureAccount]

theorem handle_of_frozen (p : TransactionProcessor) (t : Transaction)
    (h : (acct p (Transaction.client_id t)).locked = true ∨
        (acct p (Transaction.client_id t)).error.isSome = true) :
    handle p t = p := by
  have hex : (alGet p.accounts (Transaction.client_id t)).isSome = true := by
    cases hgm : alGet p.accounts (Transaction.client_id t) with
    | none =>
        exfalso
        have : acct p (Transaction.client_id t) = Account.init := by simp [acct, hgm]
        rw [this] at h
        rcases h with h | h <;> simp [Account.init] at h
    | some a => rfl
  have hf : activeFor p (Transaction.client_id t) = false := by
    unfold activeFor
    rcases h with h | h
    · simp [h]
    · rcases Option.isSome_iff_exists.mp h with ⟨y, hy⟩
      simp [hy]
  rw [handle_gated p t hf]
  exact ensureAccount_of_isSome p hex

/-- C5: once an account is locked or carries a terminal error, any event for that
client leaves the processor completely unchanged; and an account can only become
locked by a chargeback event of its own client. -/
theorem c5_frozen_account_noop (p : TransactionProcessor) (t : Transaction) :
    ((acct p (Transaction.client_id t)).locked = true ∨
        (acct p (Transaction.client_id t)).error.isSome = true → handle p t = p) ∧
    (∀ c : Nat, (acct p c).locked = false → (acct (handle p t) c).locked = true →
        ∃ id, t = Transaction.chargeback c id) := by
  constructor
  · exact handle_of_frozen p t
  · intro c hc0 hc1
    cases t with
    | chargeback c2 id =>
        by_cases hcc : c = c2
        · subst hcc; exact ⟨id, rfl⟩
        · exfalso
          rw [acct_handle_of_ne p _ (by simpa [Transaction.client_id] using hcc)] at hc1
          rw [hc0] at hc1
          exact Bool.false_ne_true hc1
    | deposit c2 id amt =>
        exfalso
        rw [locked_handle_eq p _ c (fun c3 id2 => by simp)] at hc1
        rw [hc0] at hc1
        exact Bool.false_ne_true hc1
    | withdrawal c2 id amt =>
        exfalso
        rw [locked_handle_eq p _ c (fun c3 id2 => by simp)] at hc1
        rw [hc0] at hc1
        exact Bool.false_ne_true hc1
    | dispute c2 id =>
        exfalso
        rw [locked_handle_eq p _ c (fun c3 id2 => by simp)] at hc1
        rw [hc0] at hc1
        exact Bool.false_ne_true hc1
    | resolve c2 id =>
        exfalso
        rw [locked_handle_eq p _ c (fun c3 id2 => by simp)] at hc1
        rw [hc0] at hc1
        exact Bool.false_ne_true hc1

/-- C1 counterexample: after deposit 10, withdrawal 4, dispute of the withdrawal,
the account's total is 10, while the claim's sum (deposits minus withdrawals
minus deposit chargebacks) is 6: a dispute on a withdrawal inflates the total,
so the claimed invariant fails as stated. -/
theorem c1_counterexample :
    totalOf (processTrace
      [.deposit 1 1 10, .withdrawal 1 2 4, .dispute 1 2]) 1 = 10 ∧
    specNetOrigFrom emptyProcessor
      [.deposit 1 1 10, .withdrawal 1 2 4, .dispute 1 2] 1 = 6 ∧
    (10 : ℚ) ≠ 6 := by
  refine ⟨?_, ?_, by norm_num⟩ <;>
    norm_num [totalOf, specNetOrigFrom, specContributionOrig, activeFor, processTrace,
      runTrace, handle, dispatch, handleDeposit, handleWithdrawal, handleDispute,
      handleResolve, handleChargeback, ensureAccount, acct, setAcct, addTransaction,
      alGet, alSet, alInsert, alUpd, emptyProcessor, Account.init,
      Transaction.client_id, Transaction.tx_id]

/-- C5 witness: a chargebacked (locked) account discards a further deposit with no
state change, and the lock in that run was introduced by a chargeback event. -/
theorem c5_witness :
    handle (processTrace [.deposit 1 1 (3/2), .dispute 1 1, .chargeback 1 1])
        (.deposit 1 9 5) =
      processTrace [.deposit 1 1 (3/2), .dispute 1 1, .chargeback 1 1] ∧
    ∃ id, (Transaction.chargeback 1 1 : Transaction) = Transaction.chargeback 1 id := by
  constructor
  · exact (c5_frozen_account_noop
        (processTrace [.deposit 1 1 (3/2), .dispute 1 1, .chargeback 1 1])
        (.deposit 1 9 5)).1
      (Or.inl (by norm_num [processTrace, runTrace, handle, dispatch, handleDeposit,
        handleWithdrawal, handleDispute, handleResolve, handleChargeback, ensureAccount,
        acct, setAcct, addTransaction, alGet, alSet, alInsert, alUpd, emptyProcessor,
        Account.init, activeFor, Transaction.client_id, Transaction.tx_id]))
  · exact (c5_frozen_account_noop (processTrace [.deposit 1 1 (3/2), .dispute 1 1])
        (.chargeback 1 1)).2 1
      (by norm_num [processTrace, runTrace, handle, dispatch, handleDeposit,
        handleWithdrawal, handleDispute, handleResolve, handleChargeback, ensureAccount,
        acct, setAcct, addTransaction, alGet, alSet, alInsert, alUpd, emptyProcessor,
        Account.init, activeFor, Transaction.client_id, Transaction.tx_id])
      (by norm_num [processTrace, runTrace, handle, dispatch, handleDeposit,
        handleWithdrawal, handleDispute, handleResolve, handleChargeback, ensureAccount,
        acct, setAcct, addTransaction, alGet, alSet, alInsert, alUpd, emptyProcessor,
        Account.init, activeFor, Transaction.client_id, Transaction.tx_id])

theorem handle_dangling (p : TransactionProcessor) (t : Transaction)
    (hk : (∃ c id, t = .dispute c id) ∨ (∃ c id, t = .resolve c id) ∨
          (∃ c id, t = .chargeback c id))
    (hg : alGet p.transactions (Transaction.tx_id t) = none) :
    handle p t = ensureAccount p (Transaction.client_id t) := by
  by_cases hact : activeFor p (Transaction.client_id t) = true
  · rw [handle_open p t hact]
    rcases hk with ⟨c2, id, rfl⟩ | ⟨c2, id, rfl⟩ | ⟨c2, id, rfl⟩ <;>
      simp only [Transaction.tx_id] at hg <;>
      simp [dispatch, handleDispute, handleResolve, handleChargeback,
        ensureAccount_transactions, hg]
  · exact handle_gated p t (by simpa using hact)

/-- C2 counterexample: the history store is global, so a Dispute by client 2 naming
client 1's withdrawal (tx 2) is not a no-op: it creates client 2's account and
moves the foreign amount 4 into client 2's held funds. -/
theorem c2_counterexample :
    alGet (processTrace [.deposit 1 1 10, .withdrawal 1 2 4]).accounts 2 = none ∧
    acct (processTrace [.deposit 1 1 10, .withdrawal 1 2 4, .dispute 2 2]) 2 =
      { available := 0, held := 4, locked := false, error := none } ∧
    (4 : ℚ) ≠ 0 := by
  refine ⟨?_, ?_, by norm_num⟩ <;>
    norm_num [processTrace, runTrace, handle, dispatch, handleDeposit, handleWithdrawal,
      handleDispute, handleResolve, handleChargeback, ensureAccount, acct, setAcct,
      addTransaction, alGet, alSet, alInsert, alUpd, emptyProcessor, Account.init,
      activeFor, Transaction.client_id, Transaction.tx_id]

/-- C2 (amended): a Dispute, Resolve, or Chargeback whose transaction id has no
history entry changes no history entry, records no error, and leaves every
existing account unchanged; its only effect is creating a default account for
the event's client if absent.  (A known transaction id is processed against the
event's client even when it was recorded for another client.) -/
theorem c2_dangling_reference_amended (p : TransactionProcessor) (t : Transaction)
    (hk : (∃ c id, t = .dispute c id) ∨ (∃ c id, t = .resolve c id) ∨
          (∃ c id, t = .chargeback c id))
    (hg : alGet p.transactions (Transaction.tx_id t) = none) :
    handle p t = ensureAccount p (Transaction.client_id t) ∧
    (handle p t).transactions = p.transactions ∧
    (∀ c a, alGet p.accounts c = some a → alGet (handle p t).accounts c = some a) ∧
    (acct (handle p t) (Transaction.client_id t)).error =
      (acct p (Transaction.client_id t)).error := by
  have h1 := handle_dangling p t hk hg
  refine ⟨h1, ?_, ?_, ?_⟩
  · rw [h1, ensureAccount_transactions]
  · intro c a ha
    rw [h1]
    by_cases hc : c = Transaction.client_id t
    · subst hc
      rw [alGet_ensureAccount_self]
      simp [acct, ha]
    · rw [alGet_ensureAccount_of_ne _ hc]
      exact ha
  · rw [h1, acct_ensureAccount]

/-- C2 witness: a dispute naming the unknown transaction id 99 leaves the history
store unchanged. -/
theorem c2_witness :
    (handle (processTrace [.deposit 1 1 (3/2)]) (.dispute 2 99)).transactions =
      (processTrace [.deposit 1 1 (3/2)]).transactions :=
  (c2_dangling_reference_amended (processTrace [.deposit 1 1 (3/2)]) (.dispute 2 99)
      (Or.inl ⟨2, 99, rfl⟩)
      (by norm_num [processTrace, runTrace, handle, dispatch, handleDeposit,
        handleWithdrawal, handleDispute, handleResolve, handleChargeback, ensureAccount,
        acct, setAcct, addTransaction, alGet, alSet, alInsert, alUpd, emptyProcessor,
        Account.init, activeFor, Transaction.client_id, Transaction.tx_id])).2.1

theorem ts_unflag_eq (e : TransactionState) (h : e.is_under_dispute = false) :
    ({ e with is_under_dispute := false } : TransactionState) = e := by
  cases e
  simp at h
  simp [h]

theorem handle_dispute_accepted (p : TransactionProcessor) (c id : Nat)
    (e : TransactionState) (hact : activeFor p c = true)
    (hg : alGet p.transactions id = some e) (hf : e.is_under_dispute = false)
    (hd : e.is_deposit = true → e.amount ≤ (acct p c).available) :
    acct (handle p (.dispute c id)) c =
      { acct p c with
          available := (acct p c).available - (if e.is_deposit then e.amount else 0),
          held := (acct p c).held + e.amount } ∧
    (handle p (.dispute c id)).transactions =
      alUpd p.transactions id (fun s => { s with is_under_dispute := true }) := by
  rw [handle_open p (.dispute c id) (by simpa [Transaction.client_id] using hact)]
  by_cases hdep : e.is_deposit = true
  · have hnl : ¬((acct p c).available < e.amount) := not_lt.mpr (hd hdep)
    constructor <;>
      simp [dispatch, handleDispute, ensureAccount_transactions, hg, hf, hdep, hnl,
        acct_ensureAccount, acct_mk_alSet_self, Transaction.client_id]
  · constructor <;>
      simp [dispatch, handleDispute, ensureAccount_transactions, hg, hf, hdep,
        acct_ensureAccount, acct_mk_alSet_self, Transaction.client_id]

theorem handle_dispute_already (p : TransactionProcessor) (c id : Nat)
    (e : TransactionState) (hact : activeFor p c = true)
    (hg : alGet p.transactions id = some e) (hf : e.is_under_dispute = true) :
    acct (handle p (.dispute c id)) c =
      { acct p c with error := some ⟨c, id, .DisputeReferencesAlreadyDisputedTx⟩ } ∧
    (handle p (.dispute c id)).transactions = p.transactions := by
  rw [handle_open p (.dispute c id) (by simpa [Transaction.client_id] using hact)]
  constructor <;>
    simp [dispatch, handleDispute, ensureAccount_transactions, hg, hf,
      acct_ensureAccount, acct_setAcct_self, setAcct_transactions, Transaction.client_id]

theorem handle_dispute_insufficient (p : TransactionProcessor) (c id : Nat)
    (e : TransactionState) (hact : activeFor p c = true)
    (hg : alGet p.transactions id = some e) (hf : e.is_under_dispute = false)
    (hdep : e.is_deposit = true) (hlt : (acct p c).available < e.amount) :
    acct (handle p (.dispute c id)) c =
      { acct p c with error := some ⟨c, id, .NotSufficientFundsForDispute⟩ } ∧
    (handle p (.dispute c id)).transactions = p.transactions := by
  rw [handle_open p (.dispute c id) (by simpa [Transaction.client_id] using hact)]
  constructor <;>
    simp [dispatch, handleDispute, ensureAccount_transactions, hg, hf, hdep, hlt,
      acct_ensureAccount, acct_setAcct_self, setAcct_transactions, Transaction.client_id]

theorem handle_resolve_accepted (p : TransactionProcessor) (c id : Nat)
    (e : TransactionState) (hact : activeFor p c = true)
    (hg : alGet p.transactions id = some e) (hf : e.is_under_dispute = true) :
    acct (handle p (.resolve c id)) c =
      { acct p c with available := (acct p c).available + e.amount,
                      held := (acct p c).held - e.amount } ∧
    (handle p (.resolve c id)).transactions =
      alUpd p.transactions id (fun s => { s with is_under_dispute := false }) := by
  rw [handle_open p (.resolve c id) (by simpa [Transaction.client_id] using hact)]
  constructor <;>
    simp [dispatch, handleResolve, ensureAccount_transactions, hg, hf,
      acct_ensureAccount, acct_mk_alSet_self, Transaction.client_id]

theorem handle_resolve_rejected (p : TransactionProcessor) (c id : Nat)
    (e : TransactionState) (hact : activeFor p c = true)
    (hg : alGet p.transactions id = some e) (hf : e.is_under_dispute = false) :
    acct (handle p (.resolve c id)) c =
      { acct p c with error := some ⟨c, id, .ResolveWhenTxNotUnderDispute⟩ } ∧
    (handle p (.resolve c id)).transactions = p.transactions := by
  rw [handle_open p (.resolve c id) (by simpa [Transaction.client_id] using hact)]
  constructor <;>
    simp [dispatch, handleResolve, ensureAccount_transactions, hg, hf,
      acct_ensureAccount, acct_setAcct_self, setAcct_transactions, Transaction.client_id]

/-- C3 counterexample: for a disputed withdrawal, resolve does not restore the
pre-dispute available balance: after deposit 10 and withdrawal 4, available is 6,
but after additionally disputing and resolving the withdrawal it is 10. -/
theorem c3_counterexample :
    (acct (processTrace [.deposit 1 1 10, .withdrawal 1 2 4]) 1).available = 6 ∧
    (acct (processTrace
        [.deposit 1 1 10, .withdrawal 1 2 4, .dispute 1 2, .resolve 1 2]) 1).available
      = 10 ∧
    (6 : ℚ) ≠ 10 := by
  refine ⟨?_, ?_, by norm_num⟩ <;>
    norm_num [processTrace, runTrace, handle, dispatch, handleDeposit, handleWithdrawal,
      handleDispute, handleResolve, handleChargeback, ensureAccount, acct, setAcct,
      addTransaction, alGet, alSet, alInsert, alUpd, emptyProcessor, Account.init,
      activeFor, Transaction.client_id, Transaction.tx_id]

/-- C3 (amended): for an active account and a recorded not-yet-disputed transaction
(with enough available funds when it is a deposit), dispute followed by resolve
restores held exactly and restores available exactly for a deposit, while for a
withdrawal available increases by the entry's amount (the withdrawal is
effectively reversed); the entry's under-dispute flag returns to false (the entry
is restored verbatim), and a second resolve of the same id is rejected with the
not-under-dispute error. -/
theorem c3_dispute_resolve_roundtrip_amended (p : TransactionProcessor) (c id : Nat)
    (e : TransactionState)
    (hl : (acct p c).locked = false) (he : (acct p c).error = none)
    (hg : alGet p.transactions id = some e) (hf : e.is_under_dispute = false)
    (hd : e.is_deposit = true → e.amount ≤ (acct p c).available) :
    (acct (handle (handle p (.dispute c id)) (.resolve c id)) c).available =
      (acct p c).available + (if e.is_deposit then 0 else e.amount) ∧
    (acct (handle (handle p (.dispute c id)) (.resolve c id)) c).held =
      (acct p c).held ∧
    alGet (handle (handle p (.dispute c id)) (.resolve c id)).transactions id =
      some e ∧
    (acct (handle (handle (handle p (.dispute c id)) (.resolve c id)) (.resolve c id))
        c).error = some ⟨c, id, .ResolveWhenTxNotUnderDispute⟩ := by
  have hact : activeFor p c = true := by simp [activeFor, hl, he]
  obtain ⟨ha1, ht1⟩ := handle_dispute_accepted p c id e hact hg hf hd
  have hact1 : activeFor (handle p (.dispute c id)) c = true := by
    simp [activeFor, ha1, hl, he]
  have hg1 : alGet (handle p (.dispute c id)).transactions id =
      some { e with is_under_dispute := true } := by
    rw [ht1, alGet_alUpd_self, hg]
    rfl
  obtain ⟨ha2, ht2⟩ :=
    handle_resolve_accepted (handle p (.dispute c id)) c id
      { e with is_under_dispute := true } hact1 hg1 rfl
  have hg2 : alGet (handle (handle p (.dispute c id)) (.resolve c id)).transactions id =
      some e := by
    rw [ht2, alGet_alUpd_self, hg1]
    simp [ts_unflag_eq e hf]
  have havail : (acct (handle (handle p (.dispute c id)) (.resolve c id)) c).available =
      (acct p c).available + (if e.is_deposit then 0 else e.amount) := by
    rw [ha2, ha1]
    by_cases hdep : e.is_deposit = true <;> simp [hdep] <;> ring
  have hheld : (acct (handle (handle p (.dispute c id)) (.resolve c id)) c).held =
      (acct p c).held := by
    rw [ha2, ha1]
    simp
  have hact2 : activeFor (handle (handle p (.dispute c id)) (.resolve c id)) c = true := by
    simp [activeFor, ha2, ha1, hl, he]
  obtain ⟨ha3, _⟩ :=
    handle_resolve_rejected (handle (handle p (.dispute c id)) (.resolve c id)) c id
      e hact2 hg2 hf
  refine ⟨havail, hheld, hg2, ?_⟩
  rw [ha3]

/-- C3 witness: for the recorded withdrawal of 4, dispute then resolve then a second
resolve ends with the not-under-dispute error recorded on the account. -/
theorem c3_witness :
    (acct (handle (handle (handle (processTrace [.deposit 1 1 10, .withdrawal 1 2 4])
        (.dispute 1 2)) (.resolve 1 2)) (.resolve 1 2)) 1).error =
      some ⟨1, 2, .ResolveWhenTxNotUnderDispute⟩ :=
  (c3_dispute_resolve_roundtrip_amended
      (processTrace [.deposit 1 1 10, .withdrawal 1 2 4]) 1 2 ⟨4, false, false⟩
      (by norm_num [processTrace, runTrace, handle, dispatch, handleDeposit,
        handleWithdrawal, handleDispute, handleResolve, handleChargeback, ensureAccount,
        acct, setAcct, addTransaction, alGet, alSet, alInsert, alUpd, emptyProcessor,
        Account.init, activeFor, Transaction.client_id, Transaction.tx_id])
      (by norm_num [processTrace, runTrace, handle, dispatch, handleDeposit,
        handleWithdrawal, handleDispute, handleResolve, handleChargeback, ensureAccount,
        acct, setAcct, addTransaction, alGet, alSet, alInsert, alUpd, emptyProcessor,
        Account.init, activeFor, Transaction.client_id, Transaction.tx_id])
      (by norm_num [processTrace, runTrace, handle, dispatch, handleDeposit,
        handleWithdrawal, handleDispute, handleResolve, handleChargeback, ensureAccount,
        acct, setAcct, addTransaction, alGet, alSet, alInsert, alUpd, emptyProcessor,
        Account.init, activeFor, Transaction.client_id, Transaction.tx_id])
      (by decide)
      (by intro h; exact absurd h (by decide))).2.2.2

/-- C4: for a Dispute naming a recorded deposit on an active account: if the entry
is already under dispute it is rejected with the already-disputed error; if the
deposit's amount exceeds the available funds it is rejected with the
insufficient-funds-for-dispute error with available and held unchanged; otherwise
exactly the amount moves from available to held (total unchanged) and the entry
is flagged under dispute. -/
theorem c4_dispute_deposit_rules (p : TransactionProcessor) (c id : Nat)
    (e : TransactionState) (hl : (acct p c).locked = false)
    (he : (acct p c).error = none) (hg : alGet p.transactions id = some e)
    (hdep : e.is_deposit = true) :
    (e.is_under_dispute = true →
      (acct (handle p (.dispute c id)) c).error =
        some ⟨c, id, .DisputeReferencesAlreadyDisputedTx⟩) ∧
    (e.is_under_dispute = false → (acct p c).available < e.amount →
      (acct (handle p (.dispute c id)) c).error =
          some ⟨c, id, .NotSufficientFundsForDispute⟩ ∧
      (acct (handle p (.dispute c id)) c).available = (acct p c).available ∧
      (acct (handle p (.dispute c id)) c).held = (acct p c).held) ∧
    (e.is_under_dispute = false → e.amount ≤ (acct p c).available →
      (acct (handle p (.dispute c id)) c).available =
          (acct p c).available - e.amount ∧
      (acct (handle p (.dispute c id)) c).held = (acct p c).held + e.amount ∧
      totalOf (handle p (.dispute c id)) c = totalOf p c ∧
      alGet (handle p (.dispute c id)).transactions id =
        some { e with is_under_dispute := true }) := by
  have hact : activeFor p c = true := by simp [activeFor, hl, he]
  refine ⟨?_, ?_, ?_⟩
  · intro hf
    obtain ⟨ha, _⟩ := handle_dispute_already p c id e hact hg hf
    rw [ha]
  · intro hf hlt
    obtain ⟨ha, _⟩ := handle_dispute_insufficient p c id e hact hg hf hdep hlt
    rw [ha]
    exact ⟨rfl, rfl, rfl⟩
  · intro hf hle
    obtain ⟨ha, ht⟩ := handle_dispute_accepted p c id e hact hg hf (fun _ => hle)
    refine ⟨?_, ?_, ?_, ?_⟩
    · rw [ha]; simp [hdep]
    · rw [ha]
    · rw [totalOf, totalOf, ha]
      simp [hdep]
      try ring
    · rw [ht, alGet_alUpd_self, hg]
      rfl

/-- C4 witness: after a deposit of 10 and a withdrawal of 4 (available 6), a dispute
of the deposit is rejected with the insufficient-funds-for-dispute error and the
balances stay at available 6, held 0. -/
theorem c4_witness :
    (acct (handle (processTrace [.deposit 1 1 10, .withdrawal 1 2 4]) (.dispute 1 1))
        1).error = some ⟨1, 1, .NotSufficientFundsForDispute⟩ ∧
    (acct (handle (processTrace [.deposit 1 1 10, .withdrawal 1 2 4]) (.dispute 1 1))
        1).available =
      (acct (processTrace [.deposit 1 1 10, .withdrawal 1 2 4]) 1).available ∧
    (acct (handle (processTrace [.deposit 1 1 10, .withdrawal 1 2 4]) (.dispute 1 1))
        1).held =
      (acct (processTrace [.deposit 1 1 10, .withdrawal 1 2 4]) 1).held :=
  (c4_dispute_deposit_rules (processTrace [.deposit 1 1 10, .withdrawal 1 2 4]) 1 1
      ⟨10, false, true⟩
      (by norm_num [processTrace, runTrace, handle, dispatch, handleDeposit,
        handleWithdrawal, handleDispute, handleResolve, handleChargeback, ensureAccount,
        acct, setAcct, addTransaction, alGet, alSet, alInsert, alUpd, emptyProcessor,
        Account.init, activeFor, Transaction.client_id, Transaction.tx_id])
      (by norm_num [processTrace, runTrace, handle, dispatch, handleDeposit,
        handleWithdrawal, handleDispute, handleResolve, handleChargeback, ensureAccount,
        acct, setAcct, addTransaction, alGet, alSet, alInsert, alUpd, emptyProcessor,
        Account.init, activeFor, Transaction.client_id, Transaction.tx_id])
      (by norm_num [processTrace, runTrace, handle, dispatch, handleDeposit,
        handleWithdrawal, handleDispute, handleResolve, handleChargeback, ensureAccount,
        acct, setAcct, addTransaction, alGet, alSet, alInsert, alUpd, emptyProcessor,
        Account.init, activeFor, Transaction.client_id, Transaction.tx_id])
      (by decide)).2.1 (by decide)
      (by norm_num [processTrace, runTrace, handle, dispatch, handleDeposit,
        handleWithdrawal, handleDispute, handleResolve, handleChargeback, ensureAccount,
        acct, setAcct, addTransaction, alGet, alSet, alInsert, alUpd, emptyProcessor,
        Account.init, activeFor, Transaction.client_id, Transaction.tx_id])

/-- C7: a negative-amount deposit or withdrawal on an active account is rejected
with NegativeAmount before any balance or history mutation; a withdrawal
exceeding available funds is rejected with NotSufficientFunds with available and
held unchanged; an accepted withdrawal subtracts exactly its amount from
available and leaves held unchanged. -/
theorem c7_amount_validation (p : TransactionProcessor) (c id : Nat) (amt : ℚ)
    (hl : (acct p c).locked = false) (he : (acct p c).error = none) :
    (amt < 0 →
      (acct (handle p (.deposit c id amt)) c).error = some ⟨c, id, .NegativeAmount⟩ ∧
      (acct (handle p (.deposit c id amt)) c).available = (acct p c).available ∧
      (acct (handle p (.deposit c id amt)) c).held = (acct p c).held ∧
      (handle p (.deposit c id amt)).transactions = p.transactions ∧
      (acct (handle p (.withdrawal c id amt)) c).error = some ⟨c, id, .NegativeAmount⟩ ∧
      (acct (handle p (.withdrawal c id amt)) c).available = (acct p c).available ∧
      (acct (handle p (.withdrawal c id amt)) c).held = (acct p c).held ∧
      (handle p (.withdrawal c id amt)).transactions = p.transactions) ∧
    (0 ≤ amt → (acct p c).available < amt →
      (acct (handle p (.withdrawal c id amt)) c).error =
          some ⟨c, id, .NotSufficientFunds⟩ ∧
      (acct (handle p (.withdrawal c id amt)) c).available = (acct p c).available ∧
      (acct (handle p (.withdrawal c id amt)) c).held = (acct p c).held ∧
      (handle p (.withdrawal c id amt)).transactions = p.transactions) ∧
    (0 ≤ amt → amt ≤ (acct p c).available →
      (acct (handle p (.withdrawal c id amt)) c).available =
          (acct p c).available - amt ∧
      (acct (handle p (.withdrawal c id amt)) c).held = (acct p c).held) := by
  have hact : activeFor p c = true := by simp [activeFor, hl, he]
  refine ⟨?_, ?_, ?_⟩
  · intro h0
    have hd : handle p (.deposit c id amt) =
        setAcct (ensureAccount p c) c
          { acct p c with error := some ⟨c, id, .NegativeAmount⟩ } := by
      rw [handle_open p (.deposit c id amt)
        (by simpa [Transaction.client_id] using hact)]
      simp [dispatch, handleDeposit, h0, acct_ensureAccount, Transaction.client_id]
    have hw : handle p (.withdrawal c id amt) =
        setAcct (ensureAccount p c) c
          { acct p c with error := some ⟨c, id, .NegativeAmount⟩ } := by
      rw [handle_open p (.withdrawal c id amt)
        (by simpa [Transaction.client_id] using hact)]
      simp [dispatch, handleWithdrawal, h0, acct_ensureAccount, Transaction.client_id]
    rw [hd, hw]
    simp [acct_setAcct_self, setAcct_transactions, ensureAccount_transactions]
  · intro h0 hlt
    have hneg : ¬(amt < 0) := not_lt.mpr h0
    rw [handle_open p (.withdrawal c id amt)
      (by simpa [Transaction.client_id] using hact)]
    refine ⟨?_, ?_, ?_, ?_⟩ <;>
      simp [dispatch, handleWithdrawal, hneg, hlt, acct_ensureAccount, acct_setAcct_self,
        setAcct_transactions, ensureAccount_transactions, Transaction.client_id]
  · intro h0 hle
    have hneg : ¬(amt < 0) := not_lt.mpr h0
    have hnl : ¬((acct p c).available < amt) := not_lt.mpr hle
    rw [handle_open p (.withdrawal c id amt)
      (by simpa [Transaction.client_id] using hact)]
    constructor <;>
      simp [dispatch, handleWithdrawal, hneg, hnl, acct_ensureAccount, acct_setAcct_self,
        acct_addTransaction, Transaction.client_id]

/-- C7 witness: a deposit of -1 is rejected with NegativeAmount; withdrawing 15 from
an account holding 10 is rejected with NotSufficientFunds; withdrawing 4 from 10
leaves available 10 - 4. -/
theorem c7_witness :
    (acct (handle emptyProcessor (.deposit 1 5 (-1))) 1).error =
      some ⟨1, 5, .NegativeAmount⟩ ∧
    (acct (handle (processTrace [.deposit 1 1 10]) (.withdrawal 1 2 15)) 1).error =
      some ⟨1, 2, .NotSufficientFunds⟩ ∧
    (acct (handle (processTrace [.deposit 1 1 10]) (.withdrawal 1 2 4)) 1).available =
      (acct (processTrace [.deposit 1 1 10]) 1).available - 4 :=
  ⟨((c7_amount_validation emptyProcessor 1 5 (-1) (by decide) (by decide)).1
      (by norm_num)).1,
   ((c7_amount_validation (processTrace [.deposit 1 1 10]) 1 2 15
      (by norm_num [processTrace, runTrace, handle, dispatch, handleDeposit,
        handleWithdrawal, handleDispute, handleResolve, handleChargeback, ensureAccount,
        acct, setAcct, addTransaction, alGet, alSet, alInsert, alUpd, emptyProcessor,
        Account.init, activeFor, Transaction.client_id, Transaction.tx_id])
      (by norm_num [processTrace, runTrace, handle, dispatch, handleDeposit,
        handleWithdrawal, handleDispute, handleResolve, handleChargeback, ensureAccount,
        acct, setAcct, addTransaction, alGet, alSet, alInsert, alUpd, emptyProcessor,
        Account.init, activeFor, Transaction.client_id, Transaction.tx_id])).2.1
      (by norm_num)
      (by norm_num [processTrace, runTrace, handle, dispatch, handleDeposit,
        handleWithdrawal, handleDispute, handleResolve, handleChargeback, ensureAccount,
        acct, setAcct, addTransaction, alGet, alSet, alInsert, alUpd, emptyProcessor,
        Account.init, activeFor, Transaction.client_id, Transaction.tx_id])).1,
   ((c7_amount_validation (processTrace [.deposit 1 1 10]) 1 2 4
      (by norm_num [processTrace, runTrace, handle, dispatch, handleDeposit,
        handleWithdrawal, handleDispute, handleResolve, handleChargeback, ensureAccount,
        acct, setAcct, addTransaction, alGet, alSet, alInsert, alUpd, emptyProcessor,
        Account.init, activeFor, Transaction.client_id, Transaction.tx_id])
      (by norm_num [processTrace, runTrace, handle, dispatch, handleDeposit,
        handleWithdrawal, handleDispute, handleResolve, handleChargeback, ensureAccount,
        acct, setAcct, addTransaction, alGet, alSet, alInsert, alUpd, emptyProcessor,
        Account.init, activeFor, Transaction.client_id, Transaction.tx_id])).2.2
      (by norm_num)
      (by norm_num [processTrace, runTrace, handle, dispatch, handleDeposit,
        handleWithdrawal, handleDispute, handleResolve, handleChargeback, ensureAccount,
        acct, setAcct, addTransaction, alGet, alSet, alInsert, alUpd, emptyProcessor,
        Account.init, activeFor, Transaction.client_id, Transaction.tx_id])).1⟩

theorem alGet_alUpd_isSome {α : Type} (l : List (Nat × α)) (k : Nat) (f : α → α)
    (id2 : Nat) : (alGet (alUpd l k f) id2).isSome = (alGet l id2).isSome := by
  by_cases h : id2 = k
  · subst h
    rw [alGet_alUpd_self]
    cases alGet l id2 <;> rfl
  · rw [alGet_alUpd_of_ne _ h]

theorem txs_handle_flag_only (p : TransactionProcessor) (t : Transaction)
    (hk : ∃ c id, t = .dispute c id ∨ t = .resolve c id ∨ t = .chargeback c id) :
    (handle p t).transactions = p.transactions ∨
    ∃ idk f, (handle p t).transactions = alUpd p.transactions idk f ∧
      (∀ s, (f s).amount = s.amount) ∧ (∀ s, (f s).is_deposit = s.is_deposit) := by
  obtain ⟨c, id, hk⟩ := hk
  by_cases hact : activeFor p (Transaction.client_id t) = true
  · rw [handle_open p t hact]
    rcases hk with rfl | rfl | rfl
    · cases hg : alGet p.transactions id with
      | none =>
          left
          simp [dispatch, handleDispute, ensureAccount_transactions, hg]
      | some e =>
          by_cases h1 : e.is_under_dispute = true
          · left
            simp [dispatch, handleDispute, ensureAccount_transactions, hg, h1,
              setAcct_transactions]
          · by_cases h2 : e.is_deposit = true
            · by_cases h3 : (acct p c).available < e.amount
              · left
                simp [dispatch, handleDispute, ensureAccount_transactions, hg, h1, h2,
                  acct_ensureAccount, Transaction.client_id, h3, setAcct_transactions]
              · right
                refine ⟨id, fun s => { s with is_under_dispute := true }, ?_,
                  fun s => rfl, fun s => rfl⟩
                simp [dispatch, handleDispute, ensureAccount_transactions, hg, h1, h2,
                  acct_ensureAccount, Transaction.client_id, h3]
            · right
              refine ⟨id, fun s => { s with is_under_dispute := true }, ?_,
                fun s => rfl, fun s => rfl⟩
              simp [dispatch, handleDispute, ensureAccount_transactions, hg, h1, h2]
    · cases hg : alGet p.transactions id with
      | none =>
          left
          simp [dispatch, handleResolve, ensureAccount_transactions, hg]
      | some e =>
          by_cases h1 : e.is_under_dispute = true
          · right
            refine ⟨id, fun s => { s with is_under_dispute := false }, ?_,
              fun s => rfl, fun s => rfl⟩
            simp [dispatch, handleResolve, ensureAccount_transactions, hg, h1]
          · left
            simp [dispatch, handleResolve, ensureAccount_transactions, hg, h1,
              setAcct_transactions]
    · cases hg : alGet p.transactions id with
      | none =>
          left
          simp [dispatch, handleChargeback, ensureAccount_transactions, hg]
      | some e =>
          by_cases h1 : e.is_under_dispute = true
          · by_cases h2 : e.is_deposit = true <;>
              [skip; skip] <;>
              · right
                refine ⟨id, fun s => { s with is_under_dispute := false }, ?_,
                  fun s => rfl, fun s => rfl⟩
                simp [dispatch, handleChargeback, ensureAccount_transactions, hg, h1, h2]
          · left
            simp [dispatch, handleChargeback, ensureAccount_transactions, hg, h1,
              setAcct_transactions]
  · left
    rw [handle_gated p t (by simpa using hact), ensureAccount_transactions]

/-- C8: a rejected event (one that records a new terminal error) never touches the
history store; an accepted Deposit or Withdrawal commits exactly its entry
(last-write-wins); Dispute, Resolve and Chargeback never insert entries: they
preserve which ids are bound and each entry's amount and kind, mutating only the
under-dispute flag. -/
theorem c8_history_commit_discipline (p : TransactionProcessor) (t : Transaction) :
    ((acct (handle p t) (Transaction.client_id t)).error ≠
        (acct p (Transaction.client_id t)).error →
      (handle p t).transactions = p.transactions) ∧
    (∀ c id amt, t = .deposit c id amt → activeFor p c = true → 0 ≤ amt →
      (handle p t).transactions = alInsert p.transactions id ⟨amt, false, true⟩) ∧
    (∀ c id amt, t = .withdrawal c id amt → activeFor p c = true → 0 ≤ amt →
        amt ≤ (acct p c).available →
      (handle p t).transactions = alInsert p.transactions id ⟨amt, false, false⟩) ∧
    ((∃ c id, t = .dispute c id ∨ t = .resolve c id ∨ t = .chargeback c id) →
      (∀ id2, (alGet (handle p t).transactions id2).isSome =
          (alGet p.transactions id2).isSome) ∧
      (∀ id2 e, alGet (handle p t).transactions id2 = some e →
        ∃ e0, alGet p.transactions id2 = some e0 ∧
          e.amount = e0.amount ∧ e.is_deposit = e0.is_deposit)) := by
  refine ⟨?_, ?_, ?_, ?_⟩
  · intro hne
    by_cases hact : activeFor p (Transaction.client_id t) = true
    · rw [handle_open p t hact] at hne ⊢
      cases t with
      | deposit c id amt =>
          by_cases h0 : amt < 0
          · simp [dispatch, handleDeposit, h0, setAcct_transactions,
              ensureAccount_transactions]
          · exfalso
            apply hne
            simp [dispatch, handleDeposit, h0, Transaction.client_id,
              acct_addTransaction, acct_setAcct_self, acct_ensureAccount]
      | withdrawal c id amt =>
          by_cases h0 : amt < 0
          · simp [dispatch, handleWithdrawal, h0, setAcct_transactions,
              ensureAccount_transactions]
          · by_cases h1 : (acct p c).available < amt
            · simp [dispatch, handleWithdrawal, h0, acct_ensureAccount, h1,
                setAcct_transactions, ensureAccount_transactions]
            · exfalso
              apply hne
              simp [dispatch, handleWithdrawal, h0, acct_ensureAccount, h1,
                Transaction.client_id, acct_addTransaction, acct_setAcct_self]
      | dispute c id =>
          cases hg : alGet p.transactions id with
          | none => simp [dispatch, handleDispute, ensureAccount_transactions, hg]
          | some e =>
              by_cases h1 : e.is_under_dispute = true
              · simp [dispatch, handleDispute, ensureAccount_transactions, hg, h1,
                  setAcct_transactions]
              · by_cases h2 : e.is_deposit = true
                · by_cases h3 : (acct p c).available < e.amount
                  · simp [dispatch, handleDispute, ensureAccount_transactions, hg, h1,
                      h2, acct_ensureAccount, h3, setAcct_transactions]
                  · exfalso
                    apply hne
                    simp [dispatch, handleDispute, ensureAccount_transactions, hg, h1,
                      h2, acct_ensureAccount, h3, Transaction.client_id,
                      acct_mk_alSet_self]
                · exfalso
                  apply hne
                  simp [dispatch, handleDispute, ensureAccount_transactions, hg, h1, h2,
                    Transaction.client_id, acct_ensureAccount, acct_mk_alSet_self]
      | resolve c id =>
          cases hg : alGet p.transactions id with
          | none => simp [dispatch, handleResolve, ensureAccount_transactions, hg]
          | some e =>
              by_cases h1 : e.is_under_dispute = true
              · exfalso
                apply hne
                simp [dispatch, handleResolve, ensureAccount_transactions, hg, h1,
                  Transaction.client_id, acct_ensureAccount, acct_mk_alSet_self]
              · simp [dispatch, handleResolve, ensureAccount_transactions, hg, h1,
                  setAcct_transactions]
      | chargeback c id =>
          cases hg : alGet p.transactions id with
          | none => simp [dispatch, handleChargeback, ensureAccount_transactions, hg]
          | some e =>
              by_cases h1 : e.is_under_dispute = true
              · exfalso
                apply hne
                by_cases h2 : e.is_deposit = true <;>
                  simp [dispatch, handleChargeback, ensureAccount_transactions, hg, h1,
                    h2, Transaction.client_id, acct_ensureAccount, acct_mk_alSet_self]
              · simp [dispatch, handleChargeback, ensureAccount_transactions, hg, h1,
                  setAcct_transactions]
    · rw [handle_gated p t (by simpa using hact), ensureAccount_transactions]
  · intro c id amt ht hact h0
    subst ht
    rw [handle_open p (.deposit c id amt) (by simpa [Transaction.client_id] using hact)]
    simp [dispatch, handleDeposit, not_lt.mpr h0, addTransaction, setAcct_transactions,
      ensureAccount_transactions]
  · intro c id amt ht hact h0 hle
    subst ht
    rw [handle_open p (.withdrawal c id amt)
      (by simpa [Transaction.client_id] using hact)]
    simp [dispatch, handleWithdrawal, not_lt.mpr h0, acct_ensureAccount,
      not_lt.mpr hle, addTransaction, setAcct_transactions, ensureAccount_transactions]
  · intro hk
    have htx := txs_handle_flag_only p t hk
    constructor
    · intro id2
      rcases htx with h | ⟨idk, f, h, _, _⟩
      · rw [h]
      · rw [h, alGet_alUpd_isSome]
    · intro id2 e hge
      rcases htx with h | ⟨idk, f, h, hfa, hfd⟩
      · rw [h] at hge
        exact ⟨e, hge, rfl, rfl⟩
      · rw [h] at hge
        by_cases hid : id2 = idk
        · subst hid
          rw [alGet_alUpd_self] at hge
          cases hg0 : alGet p.transactions id2 with
          | none => rw [hg0] at hge; simp at hge
          | some e0 =>
              rw [hg0] at hge
              simp at hge
              rw [← hge]
              exact ⟨e0, rfl, hfa e0, hfd e0⟩
        · rw [alGet_alUpd_of_ne _ hid] at hge
          exact ⟨e, hge, rfl, rfl⟩

/-- C8 witness: an accepted deposit of 2 commits its history entry; a dispute on the
recorded id preserves the entry's amount and kind. -/
theorem c8_witness :
    (handle emptyProcessor (.deposit 1 7 2)).transactions =
      alInsert emptyProcessor.transactions 7 ⟨2, false, true⟩ ∧
    (alGet (handle (processTrace [.deposit 1 7 2]) (.dispute 1 7)).transactions 7).isSome
      = (alGet (processTrace [.deposit 1 7 2]).transactions 7).isSome :=
  ⟨(c8_history_commit_discipline emptyProcessor (.deposit 1 7 2)).2.1 1 7 2 rfl
      (by decide) (by norm_num),
   ((c8_history_commit_discipline (processTrace [.deposit 1 7 2]) (.dispute 1 7)).2.2.2
      ⟨1, 7, Or.inl rfl⟩).1 7⟩

theorem alGet_eq_of_mem_nodup {α : Type} (l : List (Nat × α))
    (hnd : (l.map Prod.fst).Nodup) (c : Nat) (a : α) (hmem : (c, a) ∈ l) :
    alGet l c = some a := by
  induction l with
  | nil => simp at hmem
  | cons hd rest ih =>
      rcases hd with ⟨k, v⟩
      simp only [List.map_cons, List.nodup_cons] at hnd
      rcases List.mem_cons.mp hmem with h | h
      · have h1 : c = k := congrArg Prod.fst h
        have h2 : a = v := congrArg Prod.snd h
        rw [alGet, if_pos h1.symm, h2]
      · have hc : c ∈ rest.map Prod.fst := List.mem_map.mpr ⟨(c, a), h, rfl⟩
        have hk : k ≠ c := fun he => hnd.1 (he ▸ hc)
        rw [alGet, if_neg hk]
        exact ih hnd.2 h

theorem summary_mem_of_alGet (p : TransactionProcessor) (c : Nat) (a : Account)
    (hget : alGet p.accounts c = some a) (he : a.error = none) :
    summaryRow c a ∈ summary p := by
  unfold summary summaryRow
  apply List.mem_map.mpr
  refine ⟨(c, a), ?_, rfl⟩
  apply List.mem_filter.mpr
  exact ⟨alGet_mem _ _ _ hget, by simp [he]⟩

/-- C6 (quarantine policy): handling an event touches only the event's own client's
account; an account carrying a terminal error processes no further events (the
whole processor is unchanged); the summary contains no row for an account whose
error is set; and every error-free account still appears in the summary as its
own row. -/
theorem c6_quarantine_policy (p : TransactionProcessor) (t : Transaction) :
    (∀ c, c ≠ Transaction.client_id t →
        alGet (handle p t).accounts c = alGet p.accounts c) ∧
    ((acct p (Transaction.client_id t)).error.isSome = true → handle p t = p) ∧
    (∀ c a, (p.accounts.map Prod.fst).Nodup → alGet p.accounts c = some a →
        a.error.isSome = true → ∀ row ∈ summary p, row.client ≠ c) ∧
    (∀ c a, alGet p.accounts c = some a → a.error = none →
        summaryRow c a ∈ summary p) := by
  refine ⟨?_, ?_, ?_, ?_⟩
  · intro c hc
    exact alGet_handle_of_ne p t hc
  · intro h
    exact handle_of_frozen p t (Or.inr h)
  · intro c a hnd hget herr row hrow hrc
    unfold summary at hrow
    rcases List.mem_map.mp hrow with ⟨⟨k, v⟩, hef, hrow_eq⟩
    have hkeep : v.error.isNone = true := by
      have := List.of_mem_filter hef
      simpa using this
    have hc1 : k = c := by
      rw [← hrow_eq] at hrc
      simpa using hrc
    have hvc : alGet p.accounts c = some v :=
      alGet_eq_of_mem_nodup _ hnd c v (hc1 ▸ List.mem_of_mem_filter hef)
    rw [hget] at hvc
    have hav : a = v := by injection hvc
    rw [← hav] at hkeep
    rw [Option.isSome_iff_exists] at herr
    rcases herr with ⟨y, hy⟩
    rw [hy] at hkeep
    simp at hkeep
  · intro c a hget he
    exact summary_mem_of_alGet p c a hget he

/-- C6 witness: with client 1 quarantined by a failed withdrawal and client 2
holding an accepted deposit, a further event for client 1 is a complete no-op,
no summary row names client 1, and client 2's row is in the summary. -/
theorem c6_witness :
    handle (processTrace [.withdrawal 1 2 15, .deposit 2 3 10]) (.deposit 1 9 1) =
      processTrace [.withdrawal 1 2 15, .deposit 2 3 10] ∧
    (∀ row ∈ summary (processTrace [.withdrawal 1 2 15, .deposit 2 3 10]),
      row.client ≠ 1) ∧
    summaryRow 2 ⟨10, 0, false, none⟩ ∈
      summary (processTrace [.withdrawal 1 2 15, .deposit 2 3 10]) :=
  ⟨(c6_quarantine_policy (processTrace [.withdrawal 1 2 15, .deposit 2 3 10])
      (.deposit 1 9 1)).2.1
      (by norm_num [processTrace, runTrace, handle, dispatch, handleDeposit,
        handleWithdrawal, handleDispute, handleResolve, handleChargeback, ensureAccount,
        acct, setAcct, addTransaction, alGet, alSet, alInsert, alUpd, emptyProcessor,
        Account.init, activeFor, Transaction.client_id, Transaction.tx_id]),
   (c6_quarantine_policy (processTrace [.withdrawal 1 2 15, .deposit 2 3 10])
      (.deposit 1 9 1)).2.2.1 1 ⟨0, 0, false, some ⟨1, 2, .NotSufficientFunds⟩⟩
      (by norm_num [processTrace, runTrace, handle, dispatch, handleDeposit,
        handleWithdrawal, handleDispute, handleResolve, handleChargeback, ensureAccount,
        acct, setAcct, addTransaction, alGet, alSet, alInsert, alUpd, emptyProcessor,
        Account.init, activeFor, Transaction.client_id, Transaction.tx_id])
      (by norm_num [processTrace, runTrace, handle, dispatch, handleDeposit,
        handleWithdrawal, handleDispute, handleResolve, handleChargeback, ensureAccount,
        acct, setAcct, addTransaction, alGet, alSet, alInsert, alUpd, emptyProcessor,
        Account.init, activeFor, Transaction.client_id, Transaction.tx_id])
      rfl,
   (c6_quarantine_policy (processTrace [.withdrawal 1 2 15, .deposit 2 3 10])
      (.deposit 1 9 1)).2.2.2 2 ⟨10, 0, false, none⟩
      (by norm_num [processTrace, runTrace, handle, dispatch, handleDeposit,
        handleWithdrawal, handleDispute, handleResolve, handleChargeback, ensureAccount,
        acct, setAcct, addTransaction, alGet, alSet, alInsert, alUpd, emptyProcessor,
        Account.init, activeFor, Transaction.client_id, Transaction.tx_id])
      rfl⟩

theorem alGet_dispatch_isSome (q : TransactionProcessor) (t : Transaction) (c : Nat)
    (h : (alGet q.accounts c).isSome = true) :
    (alGet (dispatch q t).accounts c).isSome = true := by
  by_cases hc : c = Transaction.client_id t
  · subst hc
    cases t with
    | deposit c' id amt =>
        by_cases h0 : amt < 0 <;>
          simp [dispatch, handleDeposit, Transaction.client_id, h0, addTransaction,
            setAcct, alGet_alSet_self]
    | withdrawal c' id amt =>
        by_cases h0 : amt < 0
        · simp [dispatch, handleWithdrawal, Transaction.client_id, h0, setAcct,
            alGet_alSet_self]
        · by_cases h1 : (acct q c').available < amt <;>
            simp [dispatch, handleWithdrawal, Transaction.client_id, h0, h1,
              addTransaction, setAcct, alGet_alSet_self]
    | dispute c' id =>
        cases hg : alGet q.transactions id with
        | none => simpa [dispatch, handleDispute, Transaction.client_id, hg] using h
        | some e =>
            by_cases h1 : e.is_under_dispute = true
            · simp [dispatch, handleDispute, Transaction.client_id, hg, h1, setAcct,
                alGet_alSet_self]
            · by_cases h2 : e.is_deposit = true
              · by_cases h3 : (acct q c').available < e.amount <;>
                  simp [dispatch, handleDispute, Transaction.client_id, hg, h1, h2, h3,
                    setAcct, alGet_alSet_self]
              · simp [dispatch, handleDispute, Transaction.client_id, hg, h1, h2,
                  setAcct, alGet_alSet_self]
    | resolve c' id =>
        cases hg : alGet q.transactions id with
        | none => simpa [dispatch, handleResolve, Transaction.client_id, hg] using h
        | some e =>
            by_cases h1 : e.is_under_dispute = true <;>
              simp [dispatch, handleResolve, Transaction.client_id, hg, h1, setAcct,
                alGet_alSet_self]
    | chargeback c' id =>
        cases hg : alGet q.transactions id with
        | none => simpa [dispatch, handleChargeback, Transaction.client_id, hg] using h
        | some e =>
            by_cases h1 : e.is_under_dispute = true
            · by_cases h2 : e.is_deposit = true <;>
                simp [dispatch, handleChargeback, Transaction.client_id, hg, h1, h2,
                  setAcct, alGet_alSet_self]
            · simp [dispatch, handleChargeback, Transaction.client_id, hg, h1, setAcct,
                alGet_alSet_self]
  · rw [alGet_dispatch_of_ne q t hc]
    exact h

/-- C10: every handle call ensures the event's client has an account, even when the
event is then gated, rejected or ignored; an event that is a dangling-reference
no-op on a fresh client leaves a default account that carries no error and
therefore appears in the summary as available 0, held 0, total 0, unlocked. -/
theorem c10_account_creation (p : TransactionProcessor) (t : Transaction) :
    (alGet (handle p t).accounts (Transaction.client_id t)).isSome = true ∧
    (∀ c id, alGet p.accounts c = none →
      (t = .dispute c id ∨ t = .resolve c id ∨ t = .chargeback c id) →
      alGet p.transactions id = none →
      alGet (handle p t).accounts c = some Account.init ∧
      summaryRow c Account.init ∈ summary (handle p t) ∧
      summaryRow c Account.init =
        { client := c, available := 0, held := 0, total := 0, locked := false }) := by
  constructor
  · by_cases hact : activeFor p (Transaction.client_id t) = true
    · rw [handle_open p t hact]
      apply alGet_dispatch_isSome
      rw [alGet_ensureAccount_self]
      rfl
    · rw [handle_gated p t (by simpa using hact), alGet_ensureAccount_self]
      rfl
  · intro c id hnone hk hgtx
    have hcl : Transaction.client_id t = c := by
      rcases hk with rfl | rfl | rfl <;> rfl
    have h1 : handle p t = ensureAccount p c := by
      have hke : (∃ c2 id2, t = .dispute c2 id2) ∨ (∃ c2 id2, t = .resolve c2 id2) ∨
          (∃ c2 id2, t = .chargeback c2 id2) := by
        rcases hk with rfl | rfl | rfl
        · exact Or.inl ⟨c, id, rfl⟩
        · exact Or.inr (Or.inl ⟨c, id, rfl⟩)
        · exact Or.inr (Or.inr ⟨c, id, rfl⟩)
      have htxid : Transaction.tx_id t = id := by
        rcases hk with rfl | rfl | rfl <;> rfl
      rw [← hcl]
      exact handle_dangling p t hke (htxid ▸ hgtx)
    have h2 : alGet (handle p t).accounts c = some Account.init := by
      rw [h1]
      unfold ensureAccount
      rw [hnone]
      exact alGet_append_right _ _ _ hnone
    refine ⟨h2, ?_, by norm_num [summaryRow, Account.init]⟩
    rw [h1]
    unfold ensureAccount
    rw [hnone]
    unfold summary
    rw [List.filter_append, List.map_append]
    apply List.mem_append_right
    simp [Account.init, summaryRow]

/-- C10 witness: a dispute naming an unknown transaction id, sent by a fresh
client, still creates that client's default account, and the account appears in
the summary. -/
theorem c10_witness :
    (alGet (handle emptyProcessor (.dispute 3 5)).accounts 3).isSome = true ∧
    alGet (handle emptyProcessor (.dispute 3 5)).accounts 3 = some Account.init ∧
    summaryRow 3 Account.init ∈ summary (handle emptyProcessor (.dispute 3 5)) :=
  ⟨(c10_account_creation emptyProcessor (.dispute 3 5)).1,
   ((c10_account_creation emptyProcessor (.dispute 3 5)).2 3 5 rfl (Or.inl rfl) rfl).1,
   ((c10_account_creation emptyProcessor (.dispute 3 5)).2 3 5 rfl
      (Or.inl rfl) rfl).2.1⟩

end Ledger
